import Mathlib

/-!
Verification development for the diff-scoped pattern-matching engine of the
`code_review_automation` repository (Go sources under `internal/review/`).

The Go code is shallowly embedded: strings are modelled as `List Char`
(`Str`), Go's stdlib string helpers are re-implemented on that type,
`regexp` matching is modelled by a Brzozowski-derivative engine with
unanchored search (Go `Regexp.MatchString` semantics), and
`path/filepath.Match` is modelled by a structural glob matcher.  External
effects (running `git`, reading files, walking the tree with `find`) are
modelled as explicit oracle inputs: a function or value standing for the
observed output of the subprocess or syscall, with `Option` capturing the
error case.  Go `int` is modelled as `Int` where values can go negative
(diff line counters) and as `Nat` for lengths and counts; none of the
claims involve integer overflow.
-/

/-- Strings of the Go program are modelled as lists of characters. -/
abbrev Str := List Char

/-- The characters of a Lean string literal, used to write `Str` constants. -/
def chars (s : String) : Str := s.data

/-- The apostrophe character (written via its code point). -/
def aposChar : Char := Char.ofNat 39

/-- A one-character string holding an apostrophe. -/
def aposStr : Str := [aposChar]

/-- Model of Go `strings.HasPrefix`. -/
def goStartsWith (s pre : Str) : Bool := pre.isPrefixOf s

/-- Model of Go `strings.HasSuffix`. -/
def goEndsWith (s suf : Str) : Bool := suf.isSuffixOf s

/-- Model of Go `strings.Contains`: some suffix of `s` has `sub` as a prefix. -/
def goContains (s sub : Str) : Bool :=
  sub.isPrefixOf s ||
    match s with
    | [] => false
    | _ :: cs => goContains cs sub

/-- Model of Go `strings.TrimPrefix` (removes one leading occurrence). -/
def goTrimStart (s pre : Str) : Str :=
  if pre.isPrefixOf s then s.drop pre.length else s

/-- Model of Go `strings.TrimSuffix` (removes one trailing occurrence). -/
def goTrimEnd (s suf : Str) : Str :=
  if suf.isSuffixOf s then s.take (s.length - suf.length) else s

/-- Go `unicode.IsSpace` restricted to the ASCII space characters. -/
def isGoSpace (c : Char) : Bool :=
  c == ' ' || c == '\t' || c == '\n' || c == '\r' || c == '\x0b' || c == '\x0c'

/-- Model of Go `strings.TrimSpace`. -/
def goTrimSpace (s : Str) : Str :=
  ((s.dropWhile isGoSpace).reverse.dropWhile isGoSpace).reverse

/-- Model of Go `strings.ToLower` (ASCII case folding; the scanned sources
are ASCII). -/
def goToLower (s : Str) : Str := s.map Char.toLower

/-- Model of Go `strings.Split` for a one-character separator (the only form
the embedded code uses: it splits on `"+"`, `","`, `" "` and `"\n"`). -/
def splitOnChar (sep : Char) : Str → List Str
  | [] => [[]]
  | c :: cs =>
    let rest := splitOnChar sep cs
    if c == sep then [] :: rest
    else
      match rest with
      | r :: rs => (c :: r) :: rs
      | [] => [[c]]

/-- Recursion core of `goCount`; structural recursion on a fuel argument
so that the kernel can evaluate it (each step consumes at least one
character of `s`, so `s.length` fuel is always enough). -/
def goCountF (fuel : Nat) (s sub : Str) : Nat :=
  match fuel with
  | 0 => 0
  | fuel + 1 =>
    match s with
    | [] => 0
    | c :: cs =>
      if sub.isPrefixOf (c :: cs) then 1 + goCountF fuel ((c :: cs).drop sub.length) sub
      else goCountF fuel cs sub

/-- Model of Go `strings.Count` for a non-empty separator (non-overlapping
occurrences; Go returns `len+1` for the empty separator). -/
def goCount (s sub : Str) : Nat :=
  if sub.isEmpty then s.length + 1 else goCountF s.length s sub

/-- Lines as produced by `bufio.Scanner` over a subprocess output: split on
newline, with no empty final token when the output ends in a newline. -/
def scanLines (s : Str) : List Str :=
  if s = [] then []
  else
    let parts := splitOnChar '\n' s
    if s.getLast? = some '\n' then parts.dropLast else parts

/-- Model of Go `fmt.Sscanf(s, "%d", &n)`: skip leading blanks, read an
optional sign and at least one digit, ignore the rest; `none` models a
scan error. -/
def digitsVal (s : Str) : Option Nat :=
  let ds := s.takeWhile Char.isDigit
  if ds = [] then none
  else some (ds.foldl (fun a c => a * 10 + (c.toNat - 48)) 0)

/-- See `digitsVal`; this adds Go's handling of a leading sign. -/
def scanIntDec (s : Str) : Option Int :=
  let s1 := s.dropWhile (fun c => c == ' ' || c == '\t')
  match s1 with
  | '-' :: rest => (digitsVal rest).map (fun n => -(n : Int))
  | '+' :: rest => (digitsVal rest).map (fun n => (n : Int))
  | _ => (digitsVal s1).map (fun n => (n : Int))

/-! ### Regular expressions

A Brzozowski-derivative engine standing for Go's `regexp` package.  Only
the constructs used by `GetSecurityPatterns` are represented: character
classes (as semantic predicates), concatenation, alternation, Kleene star,
and bounded repetition (desugared to concatenation, as `{8,}` is `r^8 r*`).
Go's `(?i)` flag is modelled by case-insensitive character predicates. -/

inductive RE where
  | fail : RE
  | eps : RE
  | cls (p : Char → Bool) : RE
  | seq (a b : RE) : RE
  | alt (a b : RE) : RE
  | star (a : RE) : RE

def reNullable : RE → Bool
  | .fail => false
  | .eps => true
  | .cls _ => false
  | .seq a b => reNullable a && reNullable b
  | .alt a b => reNullable a || reNullable b
  | .star _ => true

/-- Smart sequencing constructor (keeps derivatives small). -/
def mkSeq : RE → RE → RE
  | .fail, _ => .fail
  | _, .fail => .fail
  | .eps, b => b
  | a, .eps => a
  | a, b => .seq a b

/-- Smart alternation constructor (keeps derivatives small). -/
def mkAlt : RE → RE → RE
  | .fail, b => b
  | a, .fail => a
  | a, b => .alt a b

def reDeriv : RE → Char → RE
  | .fail, _ => .fail
  | .eps, _ => .fail
  | .cls p, c => if p c then .eps else .fail
  | .seq a b, c =>
    if reNullable a then mkAlt (mkSeq (reDeriv a c) b) (reDeriv b c)
    else mkSeq (reDeriv a c) b
  | .alt a b, c => mkAlt (reDeriv a c) (reDeriv b c)
  | .star a, c => mkSeq (reDeriv a c) (.star a)

/-- Does some prefix of `s` match `r`? -/
def reMatchesHere : RE → Str → Bool
  | r, [] => reNullable r
  | r, c :: cs => reNullable r || reMatchesHere (reDeriv r c) cs

/-- Unanchored search: Go `Regexp.MatchString` (the patterns carry no
anchors). -/
def reSearch (r : RE) : Str → Bool
  | [] => reNullable r
  | c :: cs => reMatchesHere r (c :: cs) || reSearch r cs

/-- A literal, case-sensitive character. -/
def reChar (c : Char) : RE := .cls (fun x => x == c)

/-- A case-insensitive character (the pattern character is given in
lowercase), modelling `(?i)`. -/
def reIChar (c : Char) : RE := .cls (fun x => x.toLower == c)

def reStr (s : Str) : RE := s.foldr (fun c r => mkSeq (reChar c) r) .eps

def reIStr (s : Str) : RE := s.foldr (fun c r => mkSeq (reIChar c) r) .eps

def reAnyOf (s : Str) : RE := .cls (fun x => s.contains x)

/-- `[^...]`: RE2 negated classes also match the newline. -/
def reNoneOf (s : Str) : RE := .cls (fun x => !(s.contains x))

/-- `.` (RE2: any character except newline). -/
def reDot : RE := .cls (fun x => x != '\n')

/-- `\s` (RE2: `[\t\n\f\r ]`). -/
def reWS : RE := reAnyOf (chars " \t\n\x0c\r")

def reOpt (r : RE) : RE := .alt r .eps

def rePow (r : RE) : Nat → RE
  | 0 => .eps
  | n + 1 => mkSeq r (rePow r n)

/-- `r{n,}` desugars to `r^n r*`. -/
def reAtLeast (r : RE) (n : Nat) : RE := mkSeq (rePow r n) (.star r)

def rePlus (r : RE) : RE := mkSeq r (.star r)

def reCat (rs : List RE) : RE := rs.foldr mkSeq .eps

def reAlts (rs : List RE) : RE := rs.foldr mkAlt .fail

/-! ### Glob matching

Model of Go `path/filepath.Match` restricted to the pattern constructs
that occur in this repository (`*`, `?`, `\\`-escape and literal
characters): `*` matches any run of non-separator characters, `?` one
non-separator character, `\\` escapes the next pattern character, and
matching is anchored at both ends.  No pattern in the repository or its
configuration contains a `[...]` character class; a pattern starting a
class is treated like Go treats a malformed pattern at both call sites
(`matched` stays `false`, the error is discarded). -/

/-- Recursion core of `globMatch`; structural recursion on a fuel argument
so that the kernel can evaluate it (each step shrinks `p.length + n.length`,
so `p.length + n.length + 1` fuel is always enough). -/
def globMatchF (fuel : Nat) (p n : Str) : Bool :=
  match fuel with
  | 0 => false
  | fuel + 1 =>
    match p with
    | [] => n.isEmpty
    | c :: pr =>
      if c == '*' then
        globMatchF fuel pr n ||
          (match n with
           | [] => false
           | d :: nr => d != '/' && globMatchF fuel (c :: pr) nr)
      else if c == '?' then
        match n with
        | [] => false
        | d :: nr => d != '/' && globMatchF fuel pr nr
      else if c == '\\' then
        match pr with
        | [] => false
        | e :: pr2 =>
          match n with
          | [] => false
          | d :: nr => d == e && globMatchF fuel pr2 nr
      else if c == '[' then
        false
      else
        match n with
        | [] => false
        | d :: nr => d == c && globMatchF fuel pr nr

def globMatch (p n : Str) : Bool := globMatchF (p.length + n.length + 1) p n

/-! ### Data model: Issue, Summary, Report (`internal/review/report.go`)

The Go `Report` also carries a `Timestamp` (wall-clock time at creation);
it plays no role in any claim and real time is outside the embedding, so
the field is omitted. -/

structure Issue where
  type : Str
  severity : Str
  message : Str
  file : Str
  line : Int
  deriving DecidableEq

structure Summary where
  totalFiles : Nat
  totalIssues : Nat
  highSeverity : Nat
  mediumSeverity : Nat
  lowSeverity : Nat
  deriving DecidableEq

structure Report where
  changedFiles : List Str
  issues : List Issue
  summary : Summary
  deriving DecidableEq

/-- `NewReport` (the `Summary` struct starts at Go's zero value). -/
def newReport : Report :=
  { changedFiles := [], issues := [], summary := ⟨0, 0, 0, 0, 0⟩ }

/-- One step of `updateSummary`'s severity switch. -/
def bumpSeverity (s : Summary) (sev : Str) : Summary :=
  if sev = chars "high" then { s with highSeverity := s.highSeverity + 1 }
  else if sev = chars "medium" then { s with mediumSeverity := s.mediumSeverity + 1 }
  else if sev = chars "low" then { s with lowSeverity := s.lowSeverity + 1 }
  else s

/-- `Report.updateSummary`: recompute the whole summary from the lists. -/
def updateSummary (r : Report) : Report :=
  { r with
    summary :=
      r.issues.foldl (fun s i => bumpSeverity s i.severity)
        ⟨r.changedFiles.length, r.issues.length, 0, 0, 0⟩ }

/-- `Report.AddIssue`: append, then recompute the summary. -/
def addIssue (r : Report) (i : Issue) : Report :=
  updateSummary ({ r with issues := r.issues ++ [i] })

/-- One `report.ChangedFiles = append(report.ChangedFiles, f)` step (as done
by `analyzeGitDiff` and `analyzeFullCodebase`; it does not touch the
summary). -/
def addChangedFile (r : Report) (f : Str) : Report :=
  { r with changedFiles := r.changedFiles ++ [f] }

/-! ### Security rule registry (`internal/review/security.go`) -/

/-- Shorthand for building an `Issue` from string literals. -/
def mkIssue (t sev msg : String) (file : Str) (ln : Int) : Issue :=
  { type := chars t, severity := chars sev, message := chars msg,
    file := file, line := ln }

structure SecurityPattern where
  name : Str
  pattern : RE
  exclusions : List RE
  message : Str
  severity : Str

/-- `["']` -/
def reQuote : RE := reAnyOf ['"', aposChar]

/-- `\s*[:=]\s*` -/
def reAssign : RE := reCat [RE.star reWS, reAnyOf (chars ":="), RE.star reWS]

/-- `[A-Za-z0-9_\-]` -/
def keyChar : RE := RE.cls (fun x => x.isAlpha || x.isDigit || x == '_' || x == '-')

/-- `[A-Za-z0-9_\-\.]` -/
def tokenChar : RE :=
  RE.cls (fun x => x.isAlpha || x.isDigit || x == '_' || x == '-' || x == '.')

/-- `[A-Z0-9]` -/
def upperOrDigit : RE :=
  RE.cls (fun x => (decide ('A' ≤ x) && decide (x ≤ 'Z')) || x.isDigit)

/-- `GetSecurityPatterns`: the six security rules with their exclusion
lists, in registration order.  Each Go regular expression is transcribed
into the `RE` syntax; `(?i)` patterns use the case-insensitive character
constructors (their literal parts are written in lowercase). -/
def getSecurityPatterns : List SecurityPattern :=
  [ { name := chars "hardcoded_password"
      -- (?i)password\s*[:=]\s*["']([^"']{8,})["']
    , pattern := reCat [reIStr (chars "password"), reAssign, reQuote,
        reAtLeast (reNoneOf ['"', aposChar]) 8, reQuote]
    , exclusions :=
        [ reCat [reIStr (chars "type"), reAssign, reQuote,
            reIStr (chars "password"), reQuote]
        , reCat [reIStr (chars "autocomplete"), reAssign, reQuote,
            RE.star reDot, reIStr (chars "password"), RE.star reDot, reQuote]
        , reCat [reIStr (chars "password"), reAssign, reQuote, reQuote]
        , reCat [reIStr (chars "placeholder"), RE.star reDot, reIStr (chars "password")]
        , reCat [reIStr (chars "label"), RE.star reDot, reIStr (chars "password")]
        , reCat [reIStr (chars "message"), RE.star reDot, reIStr (chars "password")]
        , reCat [reIStr (chars "name"), reAssign, reQuote,
            RE.star reDot, reIStr (chars "password"), RE.star reDot, reQuote]
        , reCat [reIStr (chars "required"), RE.star reDot, reIStr (chars "password")]
        , reCat [reIStr (chars "password"), RE.star reDot, reIStr (chars "required")] ]
    , message := chars "Potential hardcoded password detected"
    , severity := chars "high" }
  , { name := chars "hardcoded_api_key"
      -- (?i)(api[_-]?key|apikey)\s*[:=]\s*["']([A-Za-z0-9_\-]{16,})["']
    , pattern := reCat [RE.alt
          (reCat [reIStr (chars "api"), reOpt (reAnyOf (chars "_-")), reIStr (chars "key")])
          (reIStr (chars "apikey")),
        reAssign, reQuote, reAtLeast keyChar 16, reQuote]
    , exclusions :=
        [ reIStr (chars "process.env")
        , reIStr (chars "env[")
        , reIStr (chars "os.environ")
        , reIStr (chars "getenv")
        , reCat [reIStr (chars "api_key"), RE.star reDot, reIStr (chars "()")]
        , reCat [reIStr (chars "def"), rePlus reWS, reIStr (chars "api_key")]
        , reCat [reIStr (chars "function"), rePlus reWS, reIStr (chars "api_key")]
        , reIStr (chars "api_key_authorized") ]
    , message := chars "Potential hardcoded API key detected"
    , severity := chars "high" }
  , { name := chars "hardcoded_secret"
      -- (?i)(secret|secret_key|client_secret)\s*[:=]\s*["']([A-Za-z0-9_\-]{16,})["']
    , pattern := reCat [reAlts [reIStr (chars "secret"), reIStr (chars "secret_key"),
          reIStr (chars "client_secret")],
        reAssign, reQuote, reAtLeast keyChar 16, reQuote]
    , exclusions :=
        [ reIStr (chars "process.env")
        , reIStr (chars "env[")
        , reIStr (chars "os.environ")
        , reIStr (chars "getenv")
        , reCat [reIStr (chars "\x7b\x7b"), RE.star reDot, reIStr (chars "secret"),
            RE.star reDot, reIStr (chars "\x7d\x7d")]
        , reCat [reIStr (chars "$\x7b"), RE.star reDot, reIStr (chars "secret"),
            RE.star reDot, reIStr (chars "\x7d")]
        , reIStr (chars "otp_secret")
        , reCat [reIStr (chars "secret"), RE.star reDot, reIStr (chars "data[")]
        , reCat [reIStr (chars "data."), RE.star reDot, reIStr (chars "secret")] ]
    , message := chars "Potential hardcoded secret detected"
    , severity := chars "high" }
  , { name := chars "private_key"
      -- -----BEGIN\s+(RSA|EC|DSA|OPENSSH|PGP)?\s*PRIVATE KEY-----   (case-sensitive)
    , pattern := reCat [reStr (chars "-----BEGIN"), rePlus reWS,
        reOpt (reAlts [reStr (chars "RSA"), reStr (chars "EC"), reStr (chars "DSA"),
          reStr (chars "OPENSSH"), reStr (chars "PGP")]),
        RE.star reWS, reStr (chars "PRIVATE KEY-----")]
    , exclusions :=
        [ reIStr (chars ".example")
        , reIStr (chars "template")
        , reIStr (chars ".sample") ]
    , message := chars "Private key detected in code"
    , severity := chars "high" }
  , { name := chars "aws_credentials"
      -- (A3T[A-Z0-9]|AKIA|ABIA|ACCA|ASIA)[A-Z0-9]{16}   (case-sensitive)
    , pattern := reCat [reAlts [reCat [reStr (chars "A3T"), upperOrDigit],
          reStr (chars "AKIA"), reStr (chars "ABIA"), reStr (chars "ACCA"),
          reStr (chars "ASIA")],
        rePow upperOrDigit 16]
    , exclusions :=
        [ reIStr (chars "example")
        , reIStr (chars "placeholder")
        , reCat [reIStr (chars "your"), reOpt reDot, reIStr (chars "access"),
            reOpt reDot, reIStr (chars "key")] ]
    , message := chars "AWS access key detected"
    , severity := chars "high" }
  , { name := chars "generic_token"
      -- (?i)(auth_token|access_token|bearer)\s*[:=]\s*["']([A-Za-z0-9_\-\.]{32,})["']
    , pattern := reCat [reAlts [reIStr (chars "auth_token"), reIStr (chars "access_token"),
          reIStr (chars "bearer")],
        reAssign, reQuote, reAtLeast tokenChar 32, reQuote]
    , exclusions :=
        [ reIStr (chars "process.env")
        , reIStr (chars "env[")
        , reIStr (chars "getenv")
        , reIStr (chars "localstorage")
        , reIStr (chars "sessionstorage")
        , reIStr (chars "cookie") ]
    , message := chars "Potential hardcoded token detected"
    , severity := chars "high" } ]

/-- `securityIgnoreFiles`: lock-file basenames always skipped. -/
def securityIgnoreFiles : List Str :=
  [ chars "package-lock.json"
  , chars "yarn.lock"
  , chars "pnpm-lock.yaml"
  , chars "Gemfile.lock"
  , chars "poetry.lock"
  , chars "go.sum"
  , chars "Cargo.lock"
  , chars "composer.lock" ]

/-- `securityIgnorePatterns`: generated/minified/snapshot artifacts. -/
def securityIgnorePatterns : List Str :=
  [ chars "*.min.js"
  , chars "*.min.css"
  , chars "*.map"
  , chars "*.snap"
  , chars "__snapshots__/*"
  , chars "*.generated.*"
  , chars "vendor/*"
  , chars "node_modules/*" ]

/-- Model of Go `path/filepath.Base` (Unix separators). -/
def filepathBase (path : Str) : Str :=
  if path = [] then chars "."
  else
    let p1 := (path.reverse.dropWhile (fun c => c == '/')).reverse
    if p1 = [] then chars "/"
    else (p1.reverse.takeWhile (fun c => c != '/')).reverse

/-- `shouldSkipFileForSecurity`: exact basename match against the lock-file
list, then glob match of each artifact pattern against the path and the
basename. -/
def shouldSkipFileForSecurity (filePath : Str) : Bool :=
  let baseName := filepathBase filePath
  securityIgnoreFiles.any (fun ignore => baseName == ignore) ||
    securityIgnorePatterns.any (fun pattern =>
      globMatch pattern filePath || globMatch pattern baseName)

/-! ### Diff line extractor (`getChangedLines`, `security.go`)

The subprocess invocations (`git diff -U0 --diff-filter=AM …`) are
modelled by a `GitOracle`: the recorded stdout of each command, with
`none` standing for a failed command. -/

structure ChangedLine where
  lineNum : Int
  content : Str
  deriving DecidableEq

/-- One iteration of the scanner loop in `getChangedLines`: threading the
running post-change line counter and the accumulated changed lines. -/
def processDiffLine (st : Int × List ChangedLine) (line : Str) : Int × List ChangedLine :=
  let currentLine := st.1
  let acc := st.2
  if goStartsWith line (chars "@@") then
    -- Parse @@ -X,Y +A,B @@: take the text after the first "+", before the
    -- first "," and the first " ", and scan it as a decimal number.
    let parts := splitOnChar '+' line
    match parts with
    | _ :: part1 :: _ =>
      let numPart := (splitOnChar ',' part1).headD []
      let numPart2 := (splitOnChar ' ' numPart).headD []
      match scanIntDec numPart2 with
      | some startLine => (startLine - 1, acc)
      | none => (currentLine, acc)
    | _ => (currentLine, acc)
  else if goStartsWith line (chars "+") && !goStartsWith line (chars "+++") then
    (currentLine + 1, acc ++ [⟨currentLine + 1, goTrimStart line (chars "+")⟩])
  else if !goStartsWith line (chars "-") && !goStartsWith line (chars "\\") then
    match line with
    | [] => (currentLine, acc)
    | c :: _ =>
      if c != '-' && c != '\\' && c != '@' && c != 'd' then (currentLine + 1, acc)
      else (currentLine, acc)
  else (currentLine, acc)

/-- The pure core of `getChangedLines`: walk the diff text line by line. -/
def parseDiffOutput (lines : List Str) : List ChangedLine :=
  (lines.foldl processDiffLine (0, [])).2

/-- Recorded outputs of the `git` subprocesses used in changed-file mode;
`none` models a command that exited with an error. -/
structure GitOracle where
  nameOnlyOrigin : Option Str
  nameOnlyLocal : Option Str
  fileDiffOrigin : Str → Option Str
  fileDiffLocal : Str → Option Str

/-- `getChangedLines`: try the diff against `origin/<target>`, fall back to
the local branch name, and parse whichever output was obtained; `none`
models the `error` return when both commands fail. -/
def getChangedLines (git : GitOracle) (filePath : Str) : Option (List ChangedLine) :=
  match git.fileDiffOrigin filePath with
  | some out => some (parseDiffOutput (scanLines out))
  | none =>
    match git.fileDiffLocal filePath with
    | some out => some (parseDiffOutput (scanLines out))
    | none => none

/-! ### Changed-line security evaluation (`RunSecurityChecksV2`) -/

/-- The body of the innermost loop of `RunSecurityChecksV2` for one rule:
skip unless the pattern matches, then suppress when any exclusion matches,
otherwise record the issue. -/
def checkPatternOnLine (sp : SecurityPattern) (file : Str) (cl : ChangedLine)
    (r : Report) : Report :=
  if !reSearch sp.pattern cl.content then r
  else if sp.exclusions.any (fun exc => reSearch exc cl.content) then r
  else addIssue r ({ type := chars "security", severity := sp.severity,
                     message := sp.message, file := file, line := cl.lineNum })

/-- One changed line against the whole registry. -/
def checkChangedLine (patterns : List SecurityPattern) (file : Str)
    (cl : ChangedLine) (r : Report) : Report :=
  patterns.foldl (fun r' sp => checkPatternOnLine sp file cl r') r

/-- The per-file body of `RunSecurityChecksV2`: the skip-list check comes
first, a failed per-file diff skips the file (`continue`), otherwise every
changed line is evaluated. -/
def scanFileSecurityV2 (git : GitOracle) (file : Str) (r : Report) : Report :=
  if shouldSkipFileForSecurity file then r
  else
    match getChangedLines git file with
    | none => r
    | some changedLines =>
      changedLines.foldl (fun r' cl => checkChangedLine getSecurityPatterns file cl r') r

/-- `RunSecurityChecksV2`: fold the per-file scan over the report's changed
files. -/
def runSecurityChecksV2 (git : GitOracle) (report : Report) : Report :=
  report.changedFiles.foldl (fun r f => scanFileSecurityV2 git f r) report

/-! ### Scope resolution (`internal/review/analyzer.go`)

File reads and the `find` walk are modelled as oracles: `readFile` maps a
repository-relative path to the file's content (`none` = read error; the
`filepath.Join` with the repository root is absorbed into the oracle), and
`listing` is the sequence of paths the tree walk prints, in traversal
order. -/

/-- The per-pattern test of `shouldIgnoreFile`: exact match, then
`filepath.Match` (an error counts as no match), then the
directory-prefix rule for patterns ending in `/`. -/
def matchesIgnorePattern (filePath pattern : Str) : Bool :=
  filePath == pattern ||
  globMatch pattern filePath ||
  (goEndsWith pattern (chars "/") &&
    goStartsWith filePath (goTrimEnd pattern (chars "/") ++ chars "/"))

/-- `shouldIgnoreFile` over the loaded ignore patterns. -/
def shouldIgnoreFile (ign : List Str) (filePath : Str) : Bool :=
  ign.any (fun pattern => matchesIgnorePattern filePath pattern)

/-- The tail of `analyzeGitDiff`: trim the `--name-only` output, split it
into lines, and append every non-empty, non-ignored path to the report's
changed files. -/
def addChangedFilesFromOutput (ign : List Str) (output : Str) (r : Report) : Report :=
  let files := splitOnChar '\n' (goTrimSpace output)
  files.foldl
    (fun r' f => if !f.isEmpty && !shouldIgnoreFile ign f then addChangedFile r' f else r') r

/-- `analyzeGitDiff`: the initial `git fetch` result is discarded by the
code; the `--name-only` diff is tried against `origin/<target>` and then
the local branch; `none` models the propagated "failed to get changed
files" error when both fail. -/
def analyzeGitDiff (git : GitOracle) (ign : List Str) (report : Report) : Option Report :=
  match git.nameOnlyOrigin with
  | some output => some (addChangedFilesFromOutput ign output report)
  | none =>
    match git.nameOnlyLocal with
    | some output => some (addChangedFilesFromOutput ign output report)
    | none => none

/-- The fixed extension allow-list of `analyzeFullCodebase`. -/
def codeExtensions : List Str :=
  [ chars ".py", chars ".js", chars ".ts", chars ".jsx", chars ".tsx"
  , chars ".dart", chars ".rb", chars ".php", chars ".java", chars ".kt" ]

/-- One `find . -name "*<ext>" -type f` invocation over the tree listing:
the paths whose (base)name ends in the extension, in listing order. -/
def findByExt (listing : List Str) (ext : Str) : List Str :=
  listing.filter (fun f => goEndsWith f ext)

/-- `analyzeFullCodebase`: for each extension in order, append every found,
non-empty, non-ignored path (a failing `find` for one extension is
skipped by the code; the oracle models the successful walks). -/
def analyzeFullCodebase (ign : List Str) (listing : List Str) (report : Report) : Report :=
  codeExtensions.foldl
    (fun r ext =>
      (findByExt listing ext).foldl
        (fun r' f =>
          if !f.isEmpty && !(f == chars ".") && !shouldIgnoreFile ign f then
            addChangedFile r' f
          else r') r)
    report

/-! ### Full-file security checks (`runSecurityChecks`, full-scan mode)

The Go code stores these patterns in a `map[string]string`, whose
iteration order is unspecified; the model fixes the source-text order.
The claims proved below do not depend on the order of this list. -/

def oldSecurityPatterns : List (Str × Str) :=
  [ (chars "password", chars "Hardcoded password detected")
  , (chars "api_key", chars "Hardcoded API key detected")
  , (chars "secret", chars "Hardcoded secret detected")
  , (chars "private_key", chars "Private key in code")
  , (chars "aws_access", chars "AWS credentials in code") ]

/-- The per-file body of `runSecurityChecks`: a failed read skips the file
(`continue`); otherwise each pattern key found in the lower-cased content
records one file-level issue (the `Line` field keeps its zero value). -/
def checkFileOldSecurity (readFile : Str → Option Str) (file : Str) (r : Report) : Report :=
  match readFile file with
  | none => r
  | some content =>
    let contentStr := goToLower content
    oldSecurityPatterns.foldl
      (fun r' pm =>
        if goContains contentStr pm.1 then
          addIssue r' ({ type := chars "security", severity := chars "high",
                         message := pm.2, file := file, line := 0 })
        else r') r

/-- `runSecurityChecks` (the full-scan variant; note it performs no
lock-file exemption check). -/
def runSecurityChecksOld (readFile : Str → Option Str) (report : Report) : Report :=
  report.changedFiles.foldl (fun r f => checkFileOldSecurity readFile f r) report

/-! ### Per-language quality checkers

Direct transcriptions of the per-line `strings.Contains`-based checks.
Go's `len(line)` counts bytes; the model counts characters (the scanned
sources are ASCII, and no claim involves the line-length rule). -/

/-- The loop body of `checkJavaScriptQuality` for line index `i`
(0-based; issues are reported at `i+1`). -/
def checkJavaScriptLine (file : Str) (i : Nat) (line : Str) (r : Report) : Report :=
  let lineLower := goToLower line
  let r := if line.length > 120 then
    addIssue r (mkIssue "quality" "low" "Line too long (>120 characters)" file (i + 1)) else r
  let r := if goContains line (chars "console.log") then
    addIssue r (mkIssue "quality" "low"
      "console.log statement found - remove before production" file (i + 1)) else r
  let r := if goContains (goTrimSpace line) (chars "debugger") then
    addIssue r (mkIssue "quality" "medium"
      "debugger statement found - remove before production" file (i + 1)) else r
  let r := if goContains lineLower (chars "todo") || goContains lineLower (chars "fixme") then
    addIssue r (mkIssue "quality" "low" "TODO/FIXME comment found" file (i + 1)) else r
  let r := if goContains line (chars "eval(") then
    addIssue r (mkIssue "security" "high"
      "eval() usage detected - potential code injection vulnerability" file (i + 1)) else r
  let r := if goContains line (chars "new Function(") || goContains line (chars "Function(") then
    addIssue r (mkIssue "security" "high"
      "Function constructor usage - similar risks to eval()" file (i + 1)) else r
  let r := if goContains line (chars ".innerHTML") || goContains line (chars ".outerHTML") then
    addIssue r (mkIssue "security" "high"
      "innerHTML usage - potential XSS vulnerability" file (i + 1)) else r
  let r := if goContains line (chars "document.write") then
    addIssue r (mkIssue "security" "high"
      "document.write usage - potential XSS vulnerability" file (i + 1)) else r
  let r := if goContains line (chars "child_process") || goContains line (chars "exec(") ||
      goContains line (chars "execSync(") || goContains line (chars "spawn(") then
    addIssue r (mkIssue "security" "medium"
      "child_process/exec usage - ensure input is sanitized to prevent command injection"
      file (i + 1)) else r
  let r := if goContains line (chars "Math.random()") then
    addIssue r (mkIssue "security" "medium"
      "Math.random() is not cryptographically secure - use crypto.randomBytes() for security-sensitive operations"
      file (i + 1)) else r
  let r := if goContains line (chars "require(") &&
      !goContains line (chars "require(\x22") &&
      !goContains line (chars "require(" ++ aposStr) then
    addIssue r (mkIssue "security" "medium"
      "Non-literal require() - potential arbitrary code execution" file (i + 1)) else r
  let r := if goContains line (chars "rejectUnauthorized: false") ||
      goContains line (chars "NODE_TLS_REJECT_UNAUTHORIZED") then
    addIssue r (mkIssue "security" "high"
      "SSL verification disabled - vulnerable to man-in-the-middle attacks" file (i + 1)) else r
  r

/-- `checkJavaScriptQuality`: a failed read skips the file; otherwise every
line of the full content is checked, plus one file-level check. -/
def checkJavaScriptQuality (readFile : Str → Option Str) (file : Str) (r : Report) : Report :=
  match readFile file with
  | none => r
  | some contentStr =>
    let lines := splitOnChar '\n' contentStr
    let r := lines.enum.foldl (fun r' il => checkJavaScriptLine file il.1 il.2 r') r
    if !goContains contentStr (chars "use strict") &&
        !goContains contentStr (chars "import ") &&
        !goContains contentStr (chars "export ") then
      addIssue r ({ type := chars "quality", severity := chars "low",
                    message := chars "Consider adding " ++ aposStr ++ chars "use strict" ++
                      aposStr ++ chars " or converting to ES module",
                    file := file, line := 0 })
    else r

/-- The loop body of `checkPythonQuality`. -/
def checkPythonLine (file : Str) (i : Nat) (line : Str) (r : Report) : Report :=
  let lineLower := goToLower line
  let trimmed := goTrimSpace line
  let r := if line.length > 120 then
    addIssue r (mkIssue "quality" "low" "Line too long (>120 characters)" file (i + 1)) else r
  let r := if goStartsWith trimmed (chars "print(") || goStartsWith trimmed (chars "print (") then
    addIssue r (mkIssue "quality" "low"
      "print() statement found - consider using logging instead" file (i + 1)) else r
  let r := if goContains line (chars "import pdb") || goContains line (chars "pdb.set_trace()") ||
      goContains line (chars "breakpoint()") then
    addIssue r (mkIssue "quality" "medium"
      "Debugger statement found - remove before production" file (i + 1)) else r
  let r := if goContains lineLower (chars "todo") || goContains lineLower (chars "fixme") then
    addIssue r (mkIssue "quality" "low" "TODO/FIXME comment found" file (i + 1)) else r
  let r := if goContains line (chars "eval(") || goContains line (chars "exec(") then
    addIssue r (mkIssue "security" "high"
      "eval()/exec() usage detected - potential code injection vulnerability" file (i + 1)) else r
  let r := if goContains line (chars "subprocess") && goContains line (chars "shell=True") then
    addIssue r (mkIssue "security" "medium"
      "subprocess with shell=True - potential command injection risk" file (i + 1)) else r
  let r := if goContains line (chars "os.system(") then
    addIssue r (mkIssue "security" "medium"
      "os.system() usage - consider using subprocess with proper escaping" file (i + 1)) else r
  let r := if trimmed == chars "except:" then
    addIssue r (mkIssue "quality" "medium"
      "Bare except clause - specify the exception type" file (i + 1)) else r
  let r := if goContains line (chars "# type: ignore") then
    addIssue r (mkIssue "quality" "low"
      "Type ignore comment found - consider fixing the type error" file (i + 1)) else r
  let r := if goContains line (chars "pickle.load") || goContains line (chars "pickle.loads") then
    addIssue r (mkIssue "security" "high"
      "pickle.load() is unsafe - can execute arbitrary code during deserialization"
      file (i + 1)) else r
  let r := if goContains line (chars "yaml.load(") && !goContains line (chars "Loader=") then
    addIssue r (mkIssue "security" "high"
      "yaml.load() without safe Loader - use yaml.safe_load() or specify Loader=yaml.SafeLoader"
      file (i + 1)) else r
  let r := if (goContains line (chars "execute(") || goContains line (chars "executemany(")) &&
      (goContains line (chars "%") || goContains line (chars ".format(") ||
        goContains line (chars "f\x22") || goContains line (chars "f" ++ aposStr)) then
    addIssue r (mkIssue "security" "high"
      "Potential SQL injection - use parameterized queries instead of string formatting"
      file (i + 1)) else r
  let r := if goContains lineLower (chars "password") && goContains line (chars "=") &&
      (goContains line (chars "\x22") || goContains line aposStr) then
    addIssue r (mkIssue "security" "high"
      "Potential hardcoded password - use environment variables" file (i + 1)) else r
  r

/-- `checkPythonQuality`. -/
def checkPythonQuality (readFile : Str → Option Str) (file : Str) (r : Report) : Report :=
  match readFile file with
  | none => r
  | some contentStr =>
    let lines := splitOnChar '\n' contentStr
    lines.enum.foldl (fun r' il => checkPythonLine file il.1 il.2 r') r

/-- The loop body of `checkTypeScriptQuality`. -/
def checkTypeScriptLine (file : Str) (i : Nat) (line : Str) (r : Report) : Report :=
  let lineLower := goToLower line
  let r := if line.length > 120 then
    addIssue r (mkIssue "quality" "low" "Line too long (>120 characters)" file (i + 1)) else r
  let r := if goContains line (chars "console.log") then
    addIssue r (mkIssue "quality" "low"
      "console.log statement found - remove before production" file (i + 1)) else r
  let r := if goContains (goTrimSpace line) (chars "debugger") then
    addIssue r (mkIssue "quality" "medium"
      "debugger statement found - remove before production" file (i + 1)) else r
  let r := if goContains line (chars ": any") || goContains line (chars "<any>") ||
      goContains line (chars "as any") then
    addIssue r ({ type := chars "quality", severity := chars "medium",
                  message := chars "Avoid using " ++ aposStr ++ chars "any" ++ aposStr ++
                    chars " type - use specific types instead",
                  file := file, line := i + 1 }) else r
  let r := if goContains lineLower (chars "todo") || goContains lineLower (chars "fixme") then
    addIssue r (mkIssue "quality" "low" "TODO/FIXME comment found" file (i + 1)) else r
  let r := if goContains line (chars "@ts-ignore") || goContains line (chars "@ts-nocheck") then
    addIssue r (mkIssue "quality" "medium"
      "TypeScript ignore directive found - consider fixing the type error" file (i + 1)) else r
  let r := if goContains line (chars "eval(") then
    addIssue r (mkIssue "security" "high"
      "eval() usage detected - potential code injection vulnerability" file (i + 1)) else r
  let r := if goContains line (chars "new Function(") || goContains line (chars "Function(") then
    addIssue r (mkIssue "security" "high"
      "Function constructor usage - similar risks to eval()" file (i + 1)) else r
  let r := if goContains line (chars ".innerHTML") ||
      goContains line (chars "dangerouslySetInnerHTML") then
    addIssue r (mkIssue "security" "high"
      "innerHTML/dangerouslySetInnerHTML usage - potential XSS vulnerability" file (i + 1)) else r
  let r := if goContains line (chars "document.write") then
    addIssue r (mkIssue "security" "high"
      "document.write usage - potential XSS vulnerability" file (i + 1)) else r
  let r := if goContains line (chars "child_process") || goContains line (chars "exec(") ||
      goContains line (chars "execSync(") || goContains line (chars "spawn(") then
    addIssue r (mkIssue "security" "medium"
      "child_process/exec usage - ensure input is sanitized to prevent command injection"
      file (i + 1)) else r
  let r := if goContains line (chars "Math.random()") then
    addIssue r (mkIssue "security" "medium"
      "Math.random() is not cryptographically secure - use crypto.randomBytes() for security-sensitive operations"
      file (i + 1)) else r
  let r := if goContains line (chars "rejectUnauthorized: false") ||
      goContains line (chars "NODE_TLS_REJECT_UNAUTHORIZED") then
    addIssue r (mkIssue "security" "high"
      "SSL verification disabled - vulnerable to man-in-the-middle attacks" file (i + 1)) else r
  let r := if goContains lineLower (chars "jwt") &&
      (goContains line (chars "secret") || goContains line (chars "Secret")) then
    addIssue r (mkIssue "security" "high"
      "Potential hardcoded JWT secret - use environment variables" file (i + 1)) else r
  let r := if goContains line (chars "fs.") && (goContains line (chars "req.") ||
      goContains line (chars "params.") || goContains line (chars "query.")) then
    addIssue r (mkIssue "security" "high"
      "Potential path traversal - validate and sanitize file paths from user input"
      file (i + 1)) else r
  let r := if goContains line (chars "new RegExp(") &&
      !goContains line (chars "new RegExp(\x22") &&
      !goContains line (chars "new RegExp(" ++ aposStr) then
    addIssue r (mkIssue "security" "medium"
      "Non-literal RegExp - potential ReDoS vulnerability with user input" file (i + 1)) else r
  let r := if goContains line (chars "Object.assign(") && goContains line (chars "req.") then
    addIssue r (mkIssue "security" "medium"
      "Object.assign with user input - potential prototype pollution" file (i + 1)) else r
  let r := if goContains line (chars "!.") || goContains line (chars "!)") then
    addIssue r (mkIssue "quality" "low"
      "Non-null assertion (!) used - consider proper null checking" file (i + 1)) else r
  let r := if (goContains line (chars "query(") || goContains line (chars "execute(")) &&
      (goContains line (chars "+") || goContains line (chars "$\x7b")) then
    addIssue r (mkIssue "security" "high"
      "Potential SQL injection - use parameterized queries instead of string concatenation"
      file (i + 1)) else r
  let r := if goContains line (chars "require(") &&
      !goContains line (chars "require(\x22") &&
      !goContains line (chars "require(" ++ aposStr) then
    addIssue r (mkIssue "security" "medium"
      "Non-literal require() - potential arbitrary code execution" file (i + 1)) else r
  r

/-- `checkTypeScriptQuality`. -/
def checkTypeScriptQuality (readFile : Str → Option Str) (file : Str) (r : Report) : Report :=
  match readFile file with
  | none => r
  | some contentStr =>
    let lines := splitOnChar '\n' contentStr
    lines.enum.foldl (fun r' il => checkTypeScriptLine file il.1 il.2 r') r

/-- The loop body of `checkDartQuality`. -/
def checkDartLine (file : Str) (i : Nat) (line : Str) (r : Report) : Report :=
  let lineLower := goToLower line
  let r := if line.length > 120 then
    addIssue r (mkIssue "quality" "low" "Line too long (>120 characters)" file (i + 1)) else r
  let r := if goContains line (chars "print(") then
    addIssue r (mkIssue "quality" "low"
      "print() statement found - remove before production" file (i + 1)) else r
  let r := if goContains line (chars "debugPrint(") then
    addIssue r (mkIssue "quality" "low"
      "debugPrint() statement found - remove before production" file (i + 1)) else r
  let r := if goContains lineLower (chars "todo") || goContains lineLower (chars "fixme") then
    addIssue r (mkIssue "quality" "low" "TODO/FIXME comment found" file (i + 1)) else r
  let r := if goContains line (chars ": dynamic") || goContains line (chars "<dynamic>") then
    addIssue r ({ type := chars "quality", severity := chars "medium",
                  message := chars "Avoid using " ++ aposStr ++ chars "dynamic" ++ aposStr ++
                    chars " type - use specific types instead",
                  file := file, line := i + 1 }) else r
  let r := if goContains line (chars "// ignore:") ||
      goContains line (chars "// ignore_for_file:") then
    addIssue r (mkIssue "quality" "medium"
      "Dart ignore directive found - consider fixing the issue" file (i + 1)) else r
  let r := if (goContains line (chars "http://") || goContains line (chars "https://")) &&
      goContains lineLower (chars "api") then
    addIssue r (mkIssue "security" "medium"
      "Hardcoded API URL - consider using environment configuration" file (i + 1)) else r
  let r := if (goContains lineLower (chars "password") || goContains lineLower (chars "apikey") ||
      goContains lineLower (chars "api_key")) &&
      (goContains line (chars "=") &&
        (goContains line (chars "\x22") || goContains line aposStr)) then
    addIssue r (mkIssue "security" "high"
      "Potential hardcoded credential - use secure storage" file (i + 1)) else r
  let r := if goContains line (chars "http://") && !goContains line (chars "localhost") &&
      !goContains line (chars "127.0.0.1") then
    addIssue r (mkIssue "security" "medium"
      "Insecure HTTP URL - use HTTPS for production" file (i + 1)) else r
  let r := if goContains line (chars "badCertificateCallback") then
    addIssue r (mkIssue "security" "high"
      "Custom certificate callback - ensure SSL verification is not disabled" file (i + 1)) else r
  let r := if goContains line (chars "!") && !goContains line (chars "!=") &&
      !goContains line (chars "//") then
    (if goContains line (chars "!.") || goContains line (chars "!)") ||
        goContains line (chars "!;") then
      addIssue r (mkIssue "quality" "medium"
        "Force unwrap (!) used - consider null safety patterns" file (i + 1))
    else r)
    else r
  r

/-- `checkDartQuality`. -/
def checkDartQuality (readFile : Str → Option Str) (file : Str) (r : Report) : Report :=
  match readFile file with
  | none => r
  | some contentStr =>
    let lines := splitOnChar '\n' contentStr
    lines.enum.foldl (fun r' il => checkDartLine file il.1 il.2 r') r

/-- `checkKotlinSpecific` (issues at `lineNum + 1`). -/
def checkKotlinSpecific (file : Str) (line : Str) (lineNum : Nat) (r : Report) : Report :=
  let r := if goContains line (chars "!!") then
    addIssue r (mkIssue "quality" "medium"
      "Force unwrap (!!) used - consider safe call (?.) or null check" file (lineNum + 1)) else r
  let r := if goContains line (chars "println(") && !goContains line (chars "System.out") then
    addIssue r (mkIssue "quality" "low"
      "println() found - use proper logging instead" file (lineNum + 1)) else r
  r

/-- The loop body of `checkJavaKotlinQuality` (needs the full line list for
the empty-catch look-ahead and the whole content for the XXE check). -/
def checkJavaKotlinLine (file : Str) (contentStr : Str) (lines : List Str) (isKotlin : Bool)
    (i : Nat) (line : Str) (r : Report) : Report :=
  let lineLower := goToLower line
  let trimmed := goTrimSpace line
  let r := if line.length > 120 then
    addIssue r (mkIssue "quality" "low" "Line too long (>120 characters)" file (i + 1)) else r
  let r := if goContains line (chars "System.out.println") ||
      goContains line (chars "System.err.println") then
    addIssue r (mkIssue "quality" "low"
      "System.out.println found - use proper logging instead" file (i + 1)) else r
  let r := if goContains line (chars ".printStackTrace()") then
    addIssue r (mkIssue "quality" "medium"
      "printStackTrace() found - use proper logging instead" file (i + 1)) else r
  let r := if goContains lineLower (chars "todo") || goContains lineLower (chars "fixme") then
    addIssue r (mkIssue "quality" "low" "TODO/FIXME comment found" file (i + 1)) else r
  let r := if trimmed == chars "catch" || goContains line (chars "catch (") then
    (match lines[i + 1]? with
     | some nextRaw =>
       let nextLine := goTrimSpace nextRaw
       if nextLine == chars "\x7d" || nextLine == chars "\x7b \x7d" ||
           nextLine == chars "\x7b\x7d" then
         addIssue r (mkIssue "quality" "medium"
           "Empty catch block - handle or log the exception" file (i + 1))
       else r
     | none => r)
    else r
  let r := if goContains line (chars "Runtime.getRuntime().exec") ||
      goContains line (chars "ProcessBuilder") then
    addIssue r (mkIssue "security" "medium"
      "Process execution detected - ensure input is sanitized" file (i + 1)) else r
  let r := if goContains line (chars "Statement") && goContains line (chars "execute") then
    (if goContains line (chars "+") || goContains line (chars "concat") then
      addIssue r (mkIssue "security" "high"
        "Potential SQL injection - use PreparedStatement with parameterized queries" file (i + 1))
    else r)
    else r
  let r := if goContains lineLower (chars "password") && goContains line (chars "=") &&
      goContains line (chars "\x22") then
    addIssue r (mkIssue "security" "high"
      "Potential hardcoded password - use secure configuration" file (i + 1)) else r
  let r := if goContains line (chars "MD5") || goContains line (chars "SHA1") ||
      goContains line (chars "DES") then
    addIssue r (mkIssue "security" "medium"
      "Weak cryptographic algorithm - use SHA-256 or stronger" file (i + 1)) else r
  let r := if goContains line (chars "TrustAllCerts") ||
      goContains line (chars "ALLOW_ALL_HOSTNAME_VERIFIER") then
    addIssue r (mkIssue "security" "high"
      "SSL verification disabled - vulnerable to man-in-the-middle attacks" file (i + 1)) else r
  let r := if goContains line (chars "XMLInputFactory") ||
      goContains line (chars "DocumentBuilderFactory") then
    (if !goContains contentStr (chars "setFeature") then
      addIssue r (mkIssue "security" "high"
        "XML parser without secure features - potential XXE vulnerability" file (i + 1))
    else r)
    else r
  if isKotlin then checkKotlinSpecific file line i r else r

/-- `checkJavaKotlinQuality`. -/
def checkJavaKotlinQuality (readFile : Str → Option Str) (file : Str) (r : Report) : Report :=
  match readFile file with
  | none => r
  | some contentStr =>
    let lines := splitOnChar '\n' contentStr
    let isKotlin := goEndsWith file (chars ".kt")
    lines.enum.foldl (fun r' il => checkJavaKotlinLine file contentStr lines isKotlin il.1 il.2 r') r

/-- The loop body of `checkPHPQuality`. -/
def checkPHPLine (file : Str) (i : Nat) (line : Str) (r : Report) : Report :=
  let lineLower := goToLower line
  let r := if line.length > 120 then
    addIssue r (mkIssue "quality" "low" "Line too long (>120 characters)" file (i + 1)) else r
  let r := if goContains line (chars "var_dump(") || goContains line (chars "print_r(") ||
      goContains line (chars "var_export(") then
    addIssue r (mkIssue "quality" "low"
      "Debug output (var_dump/print_r) found - remove before production" file (i + 1)) else r
  let r := if goContains line (chars "die(") || goContains line (chars "exit(") then
    addIssue r (mkIssue "quality" "medium"
      "die()/exit() statement found - consider proper error handling" file (i + 1)) else r
  let r := if goContains lineLower (chars "todo") || goContains lineLower (chars "fixme") then
    addIssue r (mkIssue "quality" "low" "TODO/FIXME comment found" file (i + 1)) else r
  let r := if goContains line (chars "eval(") then
    addIssue r (mkIssue "security" "high"
      "eval() usage detected - potential code injection vulnerability" file (i + 1)) else r
  let r := if goContains line (chars "shell_exec(") || goContains line (chars "exec(") ||
      goContains line (chars "system(") || goContains line (chars "passthru(") then
    addIssue r (mkIssue "security" "medium"
      "Shell command execution detected - ensure input is sanitized" file (i + 1)) else r
  let r := if goContains line (chars "$_GET") || goContains line (chars "$_POST") ||
      goContains line (chars "$_REQUEST") then
    (if goContains line (chars "mysql_query") || goContains line (chars "mysqli_query") ||
        goContains line (chars "->query(") then
      addIssue r (mkIssue "security" "high"
        "Potential SQL injection - use prepared statements" file (i + 1))
    else r)
    else r
  let r := if goContains line (chars "mysql_connect") || goContains line (chars "mysql_query") ||
      goContains line (chars "mysql_fetch") then
    addIssue r (mkIssue "quality" "medium"
      "Deprecated mysql_* function - use mysqli or PDO instead" file (i + 1)) else r
  let r := if (goContains line (chars "include(") || goContains line (chars "require(") ||
      goContains line (chars "include_once(") || goContains line (chars "require_once(")) &&
      (goContains line (chars "$_GET") || goContains line (chars "$_POST") ||
        goContains line (chars "$_REQUEST")) then
    addIssue r (mkIssue "security" "high"
      "File inclusion with user input - potential LFI/RFI vulnerability" file (i + 1)) else r
  let r := if goContains line (chars "unserialize(") &&
      (goContains line (chars "$_GET") || goContains line (chars "$_POST") ||
        goContains line (chars "$_REQUEST")) then
    addIssue r (mkIssue "security" "high"
      "Unsafe unserialize with user input - potential object injection" file (i + 1)) else r
  let r := if goContains line (chars "echo") &&
      (goContains line (chars "$_GET") || goContains line (chars "$_POST") ||
        goContains line (chars "$_REQUEST")) then
    (if !goContains line (chars "htmlspecialchars") &&
        !goContains line (chars "htmlentities") then
      addIssue r (mkIssue "security" "high"
        "Potential XSS - escape output with htmlspecialchars()" file (i + 1))
    else r)
    else r
  let r := if goContains line (chars "md5(") || goContains line (chars "sha1(") then
    (if goContains lineLower (chars "password") then
      addIssue r (mkIssue "security" "high"
        "Weak password hashing - use password_hash() instead" file (i + 1))
    else r)
    else r
  r

/-- `checkPHPQuality`. -/
def checkPHPQuality (readFile : Str → Option Str) (file : Str) (r : Report) : Report :=
  match readFile file with
  | none => r
  | some contentStr =>
    let lines := splitOnChar '\n' contentStr
    lines.enum.foldl (fun r' il => checkPHPLine file il.1 il.2 r') r

/-- The loop body of `checkRubySecurityExtended`. -/
def checkRubyExtendedLine (file : Str) (contentStr : Str) (i : Nat) (line : Str)
    (r : Report) : Report :=
  let lineLower := goToLower line
  let r := if goContains line (chars "redirect_to") &&
      (goContains line (chars "params[") || goContains line (chars "request.")) then
    addIssue r (mkIssue "security" "medium"
      "Potential open redirect - validate redirect URLs" file (i + 1)) else r
  let r := if (goContains line (chars "File.read(") || goContains line (chars "File.open(") ||
      goContains line (chars "IO.read(")) && goContains line (chars "params[") then
    addIssue r (mkIssue "security" "high"
      "Potential path traversal - validate file paths from user input" file (i + 1)) else r
  let r := if goContains line (chars ".send(") &&
      (goContains line (chars "params[") || goContains line (chars "#\x7b")) then
    addIssue r (mkIssue "security" "high"
      "Dangerous send with user input - can call arbitrary methods" file (i + 1)) else r
  let r := if goContains line (chars ".constantize") &&
      (goContains line (chars "params[") || goContains line (chars "#\x7b")) then
    addIssue r (mkIssue "security" "high"
      "Dangerous constantize with user input - can instantiate arbitrary classes"
      file (i + 1)) else r
  let r := if goContains line (chars "render") && goContains line (chars "params[") then
    addIssue r (mkIssue "security" "medium"
      "Dynamic render path with user input - potential information disclosure"
      file (i + 1)) else r
  let r := if goContains line (chars "MD5.") || goContains line (chars "Digest::MD5") ||
      goContains line (chars "SHA1.") || goContains line (chars "Digest::SHA1") then
    addIssue r (mkIssue "security" "medium"
      "Weak hash algorithm (MD5/SHA1) - use SHA256 or stronger" file (i + 1)) else r
  let r := if goContains line (chars "verify_mode") && goContains line (chars "VERIFY_NONE") then
    addIssue r (mkIssue "security" "high"
      "SSL verification disabled - vulnerable to man-in-the-middle attacks" file (i + 1)) else r
  let r := if goContains line (chars "session[") && goContains line (chars "params[") then
    addIssue r (mkIssue "security" "medium"
      "Session manipulation with user input - validate before storing" file (i + 1)) else r
  let r := if goContains line (chars ".find(params[") || goContains line (chars ".find_by(") then
    (if !goContains contentStr (chars "current_user") &&
        !goContains line (chars "current_user") then
      addIssue r (mkIssue "security" "medium"
        "Unscoped find - consider scoping to current user to prevent unauthorized access"
        file (i + 1))
    else r)
    else r
  let r := if goContains lineLower (chars "basic_auth") ||
      (goContains lineLower (chars "authorization") && goContains lineLower (chars "basic")) then
    addIssue r (mkIssue "security" "medium"
      "Basic authentication detected - ensure credentials are not hardcoded" file (i + 1)) else r
  let r := if goContains line (chars "skip_before_action :verify_authenticity_token") ||
      goContains line (chars "protect_from_forgery except:") then
    addIssue r (mkIssue "security" "high"
      "CSRF protection disabled - ensure this is intentional and properly secured"
      file (i + 1)) else r
  let r := if goContains line (chars ".params[") && !goContains line (chars ".permit(") then
    addIssue r (mkIssue "security" "high"
      "Open parameters detected - use strong parameters to whitelist allowed attributes"
      file (i + 1)) else r
  let r := if goContains line (chars ".each") && goContains line (chars ".find") then
    addIssue r (mkIssue "performance" "high" "Potential N+1 query detected" file (i + 1)) else r
  let r := if goContains file (chars "model") && goContains line (chars "class") &&
      !goContains line (chars "validates") then
    addIssue r (mkIssue "rails_structure" "medium" "Model without validations" file (i + 1)) else r
  let callbackCount := goCount contentStr (chars "before_") + goCount contentStr (chars "after_") +
    goCount contentStr (chars "around_")
  let r := if callbackCount > 5 then
    addIssue r (mkIssue "rails_structure" "medium" "Too many callbacks detected" file (i + 1)) else r
  let r := if goContains line (chars ".each") && (goContains line (chars ".find") ||
      goContains line (chars ".where") || goContains line (chars ".create") ||
      goContains line (chars ".update")) then
    addIssue r (mkIssue "performance" "medium" "Database query inside loop" file (i + 1)) else r
  let r := if goContains line (chars "+=") &&
      (goContains line (chars "\x22") || goContains line aposStr) then
    addIssue r (mkIssue "performance" "low" "String concatenation with +=" file (i + 1)) else r
  r

/-- `checkRubySecurityExtended`. -/
def checkRubySecurityExtended (file : Str) (contentStr : Str) (lines : List Str)
    (r : Report) : Report :=
  lines.enum.foldl (fun r' il => checkRubyExtendedLine file contentStr il.1 il.2 r') r

/-- The loop body of `checkRubyQuality`. -/
def checkRubyLine (file : Str) (i : Nat) (line : Str) (r : Report) : Report :=
  let lineLower := goToLower line
  let trimmed := goTrimSpace line
  let r := if line.length > 120 then
    addIssue r (mkIssue "quality" "low" "Line too long (>120 characters)" file (i + 1)) else r
  let r := if goStartsWith trimmed (chars "puts ") || goStartsWith trimmed (chars "p ") ||
      goStartsWith trimmed (chars "pp ") then
    (if !goContains line (chars "def ") then
      addIssue r (mkIssue "quality" "low"
        "Debug output (puts/p/pp) found - remove before production" file (i + 1))
    else r)
    else r
  let r := if goContains line (chars "binding.pry") || goContains line (chars "byebug") ||
      goContains line (chars "debugger") then
    addIssue r (mkIssue "quality" "medium"
      "Debugger statement found - remove before production" file (i + 1)) else r
  let r := if goContains lineLower (chars "todo") || goContains lineLower (chars "fixme") then
    addIssue r (mkIssue "quality" "low" "TODO/FIXME comment found" file (i + 1)) else r
  let r := if goContains line (chars "eval(") || goContains line (chars "instance_eval") ||
      goContains line (chars "class_eval") then
    addIssue r (mkIssue "security" "high"
      "eval() usage detected - potential code injection vulnerability" file (i + 1)) else r
  let r := if goContains line (chars "system(") || goContains line (chars "exec(") ||
      goContains line (chars "`") || goContains line (chars "%x(") ||
      goContains line (chars "Open3.") then
    addIssue r (mkIssue "security" "medium"
      "Shell command execution detected - ensure input is sanitized to prevent command injection"
      file (i + 1)) else r
  let r := if goContains line (chars ".where(\x22") || goContains line (chars ".find_by_sql(") ||
      goContains line (chars ".execute(") then
    (if goContains line (chars "#\x7b") then
      addIssue r (mkIssue "security" "high"
        "Potential SQL injection - use parameterized queries instead of string interpolation"
        file (i + 1))
    else r)
    else r
  let r := if goContains line (chars ".update_attributes(") ||
      goContains line (chars ".update(params") || goContains line (chars ".create(params") ||
      goContains line (chars ".new(params") then
    addIssue r (mkIssue "security" "high"
      "Potential mass assignment vulnerability - use strong parameters" file (i + 1)) else r
  let r := if goContains line (chars ".html_safe") || goContains line (chars "raw(") ||
      goContains line (chars "<%==") then
    addIssue r (mkIssue "security" "high"
      "Potential XSS vulnerability - html_safe/raw bypasses HTML escaping" file (i + 1)) else r
  let r := if goContains line (chars "YAML.load(") &&
      !goContains line (chars "YAML.safe_load(") then
    addIssue r (mkIssue "security" "high"
      "Unsafe YAML.load - use YAML.safe_load to prevent code execution" file (i + 1)) else r
  let r := if goContains line (chars "Marshal.load(") ||
      goContains line (chars "Marshal.restore(") then
    addIssue r (mkIssue "security" "high"
      "Unsafe deserialization with Marshal - can lead to remote code execution"
      file (i + 1)) else r
  let r := if goContains line (chars "rescue StandardError") ||
      goContains line (chars "rescue =>") then
    addIssue r (mkIssue "error_handling" "medium" "Generic rescue clause" file (i + 1)) else r
  let r := if goContains line (chars "rescue") && goContains line (chars "end") then
    addIssue r (mkIssue "error_handling" "medium" "Empty rescue block" file (i + 1)) else r
  r

/-- `checkRubyQuality` (the per-line loop, then the extended pass). -/
def checkRubyQuality (readFile : Str → Option Str) (file : Str) (r : Report) : Report :=
  match readFile file with
  | none => r
  | some contentStr =>
    let lines := splitOnChar '\n' contentStr
    let r := lines.enum.foldl (fun r' il => checkRubyLine file il.1 il.2 r') r
    checkRubySecurityExtended file contentStr lines r

/-! ### Quality dispatch and report generation -/

/-- The per-file suffix dispatch of `runQualityChecks`. -/
def qualityCheckFile (readFile : Str → Option Str) (file : Str) (r : Report) : Report :=
  if goEndsWith file (chars ".py") then checkPythonQuality readFile file r
  else if goEndsWith file (chars ".js") || goEndsWith file (chars ".jsx") then
    checkJavaScriptQuality readFile file r
  else if goEndsWith file (chars ".ts") || goEndsWith file (chars ".tsx") then
    checkTypeScriptQuality readFile file r
  else if goEndsWith file (chars ".rb") then checkRubyQuality readFile file r
  else if goEndsWith file (chars ".dart") then checkDartQuality readFile file r
  else if goEndsWith file (chars ".php") then checkPHPQuality readFile file r
  else if goEndsWith file (chars ".java") || goEndsWith file (chars ".kt") then
    checkJavaKotlinQuality readFile file r
  else r

/-- `runQualityChecks`. -/
def runQualityChecks (readFile : Str → Option Str) (report : Report) : Report :=
  report.changedFiles.foldl (fun r f => qualityCheckFile readFile f r) report

/-- `GenerateReport`: full-scan mode walks the tree and runs the full-file
security checks; changed-file mode resolves the scope from the
`--name-only` diff (aborting with an error, modelled `none`, when that
fails) and runs the changed-line security checks; both end with the
quality checks. -/
def generateReport (git : GitOracle) (readFile : Str → Option Str) (listing : List Str)
    (ign : List Str) (fullScan : Bool) : Option Report :=
  if fullScan then
    let r1 := analyzeFullCodebase ign listing newReport
    let r2 := runSecurityChecksOld readFile r1
    some (runQualityChecks readFile r2)
  else
    match analyzeGitDiff git ign newReport with
    | none => none
    | some r1 =>
      let r2 := runSecurityChecksV2 git r1
      some (runQualityChecks readFile r2)

/-! ### Statement helpers, the spec-reference predicate, and concrete
scenarios used by the theorems below -/

/-- An issue's severity lies in the three-value vocabulary; every `Issue`
literal constructed anywhere in the repository uses one of these three. -/
def sevInVocab (i : Issue) : Bool :=
  i.severity == chars "high" || i.severity == chars "medium" || i.severity == chars "low"

/-- Modelled from the spec's words (§4.1), for comparison against
`shouldIgnoreFile` only: for a pattern ending in the separator, "a path is
ignored if it equals the prefix or starts with `prefix + separator`". -/
def specDirPrefixIgnores (pattern path : Str) : Bool :=
  let pre := goTrimEnd pattern (chars "/")
  path == pre || goStartsWith path (pre ++ chars "/")

/-- The `hardcoded_password` rule (first entry of the registry). -/
def pwRule : SecurityPattern :=
  getSecurityPatterns.headD
    { name := [], pattern := .fail, exclusions := [], message := [], severity := [] }

/-- The HTML-input-type exclusion of the `hardcoded_password` rule. -/
def pwTypeExclusion : RE := pwRule.exclusions.headD .fail

/-- A line with a hardcoded password (matches the rule, no exclusion). -/
def pwLine1 : Str := chars "password = \x22supersecret1\x22"

/-- A line that matches both the rule pattern and the input-type exclusion. -/
def pwLine2 : Str := chars "type=\x22password\x22 password = \x22supersecret1\x22"

/-- An oracle in which every `git` command fails. -/
def gitFailAll : GitOracle :=
  { nameOnlyOrigin := none, nameOnlyLocal := none
  , fileDiffOrigin := fun _ => none, fileDiffLocal := fun _ => none }

/-- Changed-file-mode scenario: `app.js` is the only changed file and its
per-file diff adds the single line 3. -/
def gitC6 : GitOracle :=
  { nameOnlyOrigin := some (chars "app.js\n")
  , nameOnlyLocal := none
  , fileDiffOrigin := fun f =>
      if f = chars "app.js" then some (chars "@@ -2,0 +3,1 @@\n+var x = 1\n") else none
  , fileDiffLocal := fun _ => none }

/-- The working-tree content of `app.js` in the scenario: line 1 is
pre-existing code containing `eval(`. -/
def readC6 : Str → Option Str := fun f =>
  if f = chars "app.js" then some (chars "eval(userInput)\nvar a = 2\nvar x = 1") else none

/-- Scenario oracle whose per-file diff adds a hardcoded-password line as
line 2 of `cfg.js`. -/
def gitPwDemo : GitOracle :=
  { nameOnlyOrigin := some (chars "cfg.js\n")
  , nameOnlyLocal := none
  , fileDiffOrigin := fun f =>
      if f = chars "cfg.js" then
        some (chars "@@ -1,0 +2,1 @@\n+password = \x22supersecret1\x22\n")
      else none
  , fileDiffLocal := fun _ => none }

/-- A report scoped to `cfg.js` (as produced by scope resolution). -/
def repPwDemo : Report := addChangedFile newReport (chars "cfg.js")

/-- The issue `RunSecurityChecksV2` produces in the `gitPwDemo` scenario. -/
def pwDemoIssue : Issue :=
  mkIssue "security" "high" "Potential hardcoded password detected" (chars "cfg.js") 2

/-- A read oracle that hands every file a line matching the
hardcoded-password security pattern. -/
def readLockPw : Str → Option Str := fun _ => some (chars "password = \x22supersecret1\x22")

/-! ## Theorems

Shared structural lemmas about the report aggregator, followed by one
theorem (plus witness or counterexample) per claim. -/

theorem addIssue_issues (r : Report) (i : Issue) : (addIssue r i).issues = r.issues ++ [i] := rfl

theorem addIssue_changedFiles (r : Report) (i : Issue) :
    (addIssue r i).changedFiles = r.changedFiles := rfl

theorem addChangedFile_summary (r : Report) (f : Str) : (addChangedFile r f).summary = r.summary :=
  rfl

theorem addChangedFile_issues (r : Report) (f : Str) : (addChangedFile r f).issues = r.issues :=
  rfl

theorem bumpSeverity_totalFiles (s : Summary) (sev : Str) :
    (bumpSeverity s sev).totalFiles = s.totalFiles := by
  unfold bumpSeverity; split_ifs <;> rfl

theorem bumpSeverity_totalIssues (s : Summary) (sev : Str) :
    (bumpSeverity s sev).totalIssues = s.totalIssues := by
  unfold bumpSeverity; split_ifs <;> rfl

theorem sevFold_totalFiles (issues : List Issue) (s : Summary) :
    (issues.foldl (fun s i => bumpSeverity s i.severity) s).totalFiles = s.totalFiles := by
  induction issues generalizing s with
  | nil => rfl
  | cons i is ih => rw [List.foldl_cons, ih, bumpSeverity_totalFiles]

theorem sevFold_totalIssues (issues : List Issue) (s : Summary) :
    (issues.foldl (fun s i => bumpSeverity s i.severity) s).totalIssues = s.totalIssues := by
  induction issues generalizing s with
  | nil => rfl
  | cons i is ih => rw [List.foldl_cons, ih, bumpSeverity_totalIssues]

theorem bumpSeverity_sum (s : Summary) (sev : Str) :
    (bumpSeverity s sev).highSeverity + (bumpSeverity s sev).mediumSeverity +
      (bumpSeverity s sev).lowSeverity =
    s.highSeverity + s.mediumSeverity + s.lowSeverity +
      (if sev = chars "high" ∨ sev = chars "medium" ∨ sev = chars "low" then 1 else 0) := by
  unfold bumpSeverity
  split_ifs with h1 h2 h3 <;> simp_all <;> omega

theorem sevFold_sum (issues : List Issue) (s : Summary) :
    (issues.foldl (fun s i => bumpSeverity s i.severity) s).highSeverity +
      (issues.foldl (fun s i => bumpSeverity s i.severity) s).mediumSeverity +
      (issues.foldl (fun s i => bumpSeverity s i.severity) s).lowSeverity =
    s.highSeverity + s.mediumSeverity + s.lowSeverity + issues.countP sevInVocab := by
  induction issues generalizing s with
  | nil => simp
  | cons i is ih =>
    rw [List.foldl_cons, ih, bumpSeverity_sum, List.countP_cons]
    have : (sevInVocab i = true) ↔
        (i.severity = chars "high" ∨ i.severity = chars "medium" ∨ i.severity = chars "low") := by
      simp [sevInVocab, or_assoc]
    by_cases h : i.severity = chars "high" ∨ i.severity = chars "medium" ∨ i.severity = chars "low"
    · simp [h, this.mpr h]
      omega
    · have : sevInVocab i ≠ true := fun hc => h (this.mp hc)
      simp [h, this]

theorem updateSummary_totalIssues (r : Report) :
    (updateSummary r).summary.totalIssues = r.issues.length := by
  unfold updateSummary
  exact sevFold_totalIssues r.issues _

theorem updateSummary_totalFiles (r : Report) :
    (updateSummary r).summary.totalFiles = r.changedFiles.length := by
  unfold updateSummary
  exact sevFold_totalFiles r.issues _

theorem updateSummary_sum (r : Report) :
    (updateSummary r).summary.highSeverity + (updateSummary r).summary.mediumSeverity +
      (updateSummary r).summary.lowSeverity = r.issues.countP sevInVocab := by
  unfold updateSummary
  have h := sevFold_sum r.issues
    ⟨r.changedFiles.length, r.issues.length, 0, 0, 0⟩
  simpa using h

/-- The summary invariant re-established by every `addIssue`, for any
incoming report state. -/
theorem addIssue_summary_invariant (r : Report) (i : Issue) :
    (addIssue r i).summary.totalIssues = (addIssue r i).issues.length ∧
    (addIssue r i).summary.totalFiles = (addIssue r i).changedFiles.length ∧
    (addIssue r i).summary.highSeverity + (addIssue r i).summary.mediumSeverity +
      (addIssue r i).summary.lowSeverity = (addIssue r i).issues.countP sevInVocab := by
  unfold addIssue
  refine ⟨updateSummary_totalIssues _, updateSummary_totalFiles _, updateSummary_sum _⟩

/-- The summary invariant, as a predicate on reports. -/
def summaryInv (r : Report) : Prop :=
  r.summary.totalIssues = r.issues.length ∧
  r.summary.highSeverity + r.summary.mediumSeverity + r.summary.lowSeverity =
    r.issues.countP sevInVocab

theorem summaryInv_addIssue (r : Report) (i : Issue) : summaryInv (addIssue r i) :=
  ⟨(addIssue_summary_invariant r i).1, (addIssue_summary_invariant r i).2.2⟩

theorem summaryInv_foldl_addIssue (issues : List Issue) (r : Report) (h : summaryInv r) :
    summaryInv (issues.foldl addIssue r) := by
  induction issues generalizing r with
  | nil => exact h
  | cons i is ih => exact ih _ (summaryInv_addIssue r i)

theorem foldl_addChangedFile_summary (files : List Str) (r : Report) :
    (files.foldl addChangedFile r).summary = r.summary := by
  induction files generalizing r with
  | nil => rfl
  | cons f fs ih => rw [List.foldl_cons, ih, addChangedFile_summary]

theorem foldl_addChangedFile_issues (files : List Str) (r : Report) :
    (files.foldl addChangedFile r).issues = r.issues := by
  induction files generalizing r with
  | nil => rfl
  | cons f fs ih => rw [List.foldl_cons, ih, addChangedFile_issues]

theorem foldl_addIssue_issues (issues : List Issue) (r : Report) :
    (issues.foldl addIssue r).issues = r.issues ++ issues := by
  induction issues generalizing r with
  | nil => simp
  | cons i is ih =>
    rw [List.foldl_cons, ih, addIssue_issues]
    simp

/-- C2: for every report built by adding files to scope and then running
any sequence of `AddIssue` calls, `summary.total_issues` equals the number
of issues; and whenever every appended issue carries one of the three
severities (as every `Issue` literal in the repository does), the high,
medium and low counts partition the total exactly.  The summary is
recomputed inside `addIssue` from the issue list alone, so it cannot
drift from it. -/
theorem c2_summary_partitions_total (files : List Str) (issues : List Issue) :
    ((issues.foldl addIssue (files.foldl addChangedFile newReport)).summary.totalIssues =
      (issues.foldl addIssue (files.foldl addChangedFile newReport)).issues.length) ∧
    ((∀ i ∈ issues, sevInVocab i = true) →
      (issues.foldl addIssue (files.foldl addChangedFile newReport)).summary.highSeverity +
        (issues.foldl addIssue (files.foldl addChangedFile newReport)).summary.mediumSeverity +
        (issues.foldl addIssue (files.foldl addChangedFile newReport)).summary.lowSeverity =
      (issues.foldl addIssue (files.foldl addChangedFile newReport)).summary.totalIssues) := by
  have hbase : summaryInv (files.foldl addChangedFile newReport) := by
    constructor
    · rw [foldl_addChangedFile_summary, foldl_addChangedFile_issues]
      rfl
    · rw [foldl_addChangedFile_summary, foldl_addChangedFile_issues]
      rfl
  have hinv := summaryInv_foldl_addIssue issues _ hbase
  refine ⟨hinv.1, fun hvocab => ?_⟩
  have hiss : (issues.foldl addIssue (files.foldl addChangedFile newReport)).issues =
      (files.foldl addChangedFile newReport).issues ++ issues := foldl_addIssue_issues issues _
  rw [foldl_addChangedFile_issues] at hiss
  have hcount : (issues.foldl addIssue (files.foldl addChangedFile newReport)).issues.countP
      sevInVocab = (issues.foldl addIssue (files.foldl addChangedFile newReport)).issues.length := by
    rw [hiss]
    have : newReport.issues = [] := rfl
    rw [this, List.nil_append]
    exact List.countP_eq_length.mpr hvocab
  rw [hinv.2, hcount, hinv.1]

/-- Witness for C2 at a concrete report: two files, three issues. -/
theorem c2_summary_partitions_total_witness :
    (([mkIssue "security" "high" "a" (chars "x.js") 1,
       mkIssue "quality" "low" "b" (chars "x.js") 2,
       mkIssue "quality" "medium" "c" (chars "y.py") 3].foldl addIssue
        ([chars "x.js", chars "y.py"].foldl addChangedFile newReport)).summary.totalIssues =
      ([mkIssue "security" "high" "a" (chars "x.js") 1,
        mkIssue "quality" "low" "b" (chars "x.js") 2,
        mkIssue "quality" "medium" "c" (chars "y.py") 3].foldl addIssue
        ([chars "x.js", chars "y.py"].foldl addChangedFile newReport)).issues.length) ∧
    (([mkIssue "security" "high" "a" (chars "x.js") 1,
       mkIssue "quality" "low" "b" (chars "x.js") 2,
       mkIssue "quality" "medium" "c" (chars "y.py") 3].foldl addIssue
        ([chars "x.js", chars "y.py"].foldl addChangedFile newReport)).summary.highSeverity +
      ([mkIssue "security" "high" "a" (chars "x.js") 1,
        mkIssue "quality" "low" "b" (chars "x.js") 2,
        mkIssue "quality" "medium" "c" (chars "y.py") 3].foldl addIssue
        ([chars "x.js", chars "y.py"].foldl addChangedFile newReport)).summary.mediumSeverity +
      ([mkIssue "security" "high" "a" (chars "x.js") 1,
        mkIssue "quality" "low" "b" (chars "x.js") 2,
        mkIssue "quality" "medium" "c" (chars "y.py") 3].foldl addIssue
        ([chars "x.js", chars "y.py"].foldl addChangedFile newReport)).summary.lowSeverity =
      ([mkIssue "security" "high" "a" (chars "x.js") 1,
        mkIssue "quality" "low" "b" (chars "x.js") 2,
        mkIssue "quality" "medium" "c" (chars "y.py") 3].foldl addIssue
        ([chars "x.js", chars "y.py"].foldl addChangedFile newReport)).summary.totalIssues) := by
  have h := c2_summary_partitions_total [chars "x.js", chars "y.py"]
    [mkIssue "security" "high" "a" (chars "x.js") 1,
     mkIssue "quality" "low" "b" (chars "x.js") 2,
     mkIssue "quality" "medium" "c" (chars "y.py") 3]
  exact ⟨h.1, h.2 (by decide)⟩

/-- C10: `summary.total_files` is recomputed only inside `AddIssue`.
Adding files to scope never touches the summary: after any number of
`ChangedFiles` appends to a fresh report with no issue appended, the
summary -- in particular `total_files` -- keeps its creation value `0`;
an `addIssue` call then resets `total_files` to the current length of
`ChangedFiles`. -/
theorem c10_totalFiles_frame :
    (∀ files : List Str,
      (files.foldl addChangedFile newReport).summary = newReport.summary ∧
      (files.foldl addChangedFile newReport).summary.totalFiles = 0) ∧
    (∀ (r : Report) (i : Issue),
      (addIssue r i).summary.totalFiles = r.changedFiles.length) := by
  constructor
  · intro files
    refine ⟨foldl_addChangedFile_summary files newReport, ?_⟩
    rw [foldl_addChangedFile_summary]
    rfl
  · intro r i
    unfold addIssue
    rw [updateSummary_totalFiles]

theorem foldl_filter_addChangedFile (P : Str → Bool) (files : List Str) (r : Report) :
    ((files.foldl (fun r' f => if P f then addChangedFile r' f else r') r).changedFiles =
      r.changedFiles ++ files.filter P) ∧
    ((files.foldl (fun r' f => if P f then addChangedFile r' f else r') r).issues = r.issues) ∧
    ((files.foldl (fun r' f => if P f then addChangedFile r' f else r') r).summary = r.summary) := by
  induction files generalizing r with
  | nil => simp
  | cons f fs ih =>
    rw [List.foldl_cons, List.filter_cons]
    by_cases h : P f
    · simp only [h, if_true]
      refine ⟨?_, (ih (addChangedFile r f)).2.1, (ih (addChangedFile r f)).2.2⟩
      rw [(ih (addChangedFile r f)).1]
      show r.changedFiles ++ [f] ++ fs.filter P = _
      simp
    · simp only [h, if_false, Bool.false_eq_true]
      exact ih r

theorem foldl_exts_changedFiles (ign listing : List Str) (exts : List Str) (r : Report) :
    ((exts.foldl (fun r ext =>
        (findByExt listing ext).foldl
          (fun r' f =>
            if !f.isEmpty && !(f == chars ".") && !shouldIgnoreFile ign f then
              addChangedFile r' f
            else r') r) r).changedFiles =
      r.changedFiles ++ exts.flatMap (fun ext =>
        (findByExt listing ext).filter (fun f =>
          !f.isEmpty && !(f == chars ".") && !shouldIgnoreFile ign f))) := by
  induction exts generalizing r with
  | nil => simp
  | cons e es ih =>
    rw [List.foldl_cons, List.flatMap_cons, ih]
    rw [(foldl_filter_addChangedFile _ (findByExt listing e) r).1]
    simp

theorem analyzeFullCodebase_changedFiles (ign listing : List Str) (r : Report) :
    (analyzeFullCodebase ign listing r).changedFiles =
      r.changedFiles ++ codeExtensions.flatMap (fun ext =>
        (findByExt listing ext).filter (fun f =>
          !f.isEmpty && !(f == chars ".") && !shouldIgnoreFile ign f)) := by
  unfold analyzeFullCodebase
  exact foldl_exts_changedFiles ign listing codeExtensions r

/-- C9: scope resolution in full-scan mode is idempotent and order-stable:
two runs of `analyzeFullCodebase` over the same tree listing and ignore
patterns produce equal file lists (hence equal as sets and in the same
relative order), and that list is determined as: for each allowed
extension in their fixed order, the listing's matching files in listing
order, minus empty, `"."` and ignored entries. -/
theorem c9_full_scan_stable (ign listing : List Str) (r1 r2 : Report) :
    r1 = analyzeFullCodebase ign listing newReport →
    r2 = analyzeFullCodebase ign listing newReport →
    r1.changedFiles = r2.changedFiles ∧
    r1.changedFiles = codeExtensions.flatMap (fun ext =>
      (findByExt listing ext).filter (fun f =>
        !f.isEmpty && !(f == chars ".") && !shouldIgnoreFile ign f)) := by
  intro h1 h2
  subst h1 h2
  refine ⟨rfl, ?_⟩
  rw [analyzeFullCodebase_changedFiles]
  rfl

/-- Witness for C9 on a concrete listing. -/
theorem c9_full_scan_stable_witness :
    (analyzeFullCodebase [] [chars "./m.py", chars "./a.js"] newReport).changedFiles =
      (analyzeFullCodebase [] [chars "./m.py", chars "./a.js"] newReport).changedFiles ∧
    (analyzeFullCodebase [] [chars "./m.py", chars "./a.js"] newReport).changedFiles =
      codeExtensions.flatMap (fun ext =>
        (findByExt [chars "./m.py", chars "./a.js"] ext).filter (fun f =>
          !f.isEmpty && !(f == chars ".") && !shouldIgnoreFile [] f)) :=
  c9_full_scan_stable [] [chars "./m.py", chars "./a.js"] _ _ rfl rfl

theorem processDiffLine_plus (n : Int) (acc : List ChangedLine) (c : Str)
    (h : goStartsWith ('+' :: c) (chars "+++") = false) :
    processDiffLine (n, acc) ('+' :: c) = (n + 1, acc ++ [⟨n + 1, c⟩]) := by
  have h1 : goStartsWith ('+' :: c) (chars "@@") = false := rfl
  have h2 : goStartsWith ('+' :: c) (chars "+") = true := by
    show List.isPrefixOf (chars "+") ('+' :: c) = true
    simp [chars, List.isPrefixOf]
  have h3 : goTrimStart ('+' :: c) (chars "+") = c := by
    simp [goTrimStart, chars, List.isPrefixOf]
  unfold processDiffLine
  simp [h1, h2, h, h3]

/-- C1: the diff line extractor reconstructs post-change line numbers.  At
every `@@ -10,0 +10,3 @@` hunk header the running counter is reset to the
header's new-file start minus one (`9`), whatever the previous state was;
and a unified diff whose hunk `@@ -10,0 +10,3 @@` is followed by three
added lines (none of which is the `+++` file header) yields exactly the
changed lines numbered 10, 11, 12, in order, each carrying the content
without its leading `+`. -/
theorem c1_diff_line_extraction (c1 c2 c3 : Str)
    (h1 : goStartsWith ('+' :: c1) (chars "+++") = false)
    (h2 : goStartsWith ('+' :: c2) (chars "+++") = false)
    (h3 : goStartsWith ('+' :: c3) (chars "+++") = false) :
    (∀ st : Int × List ChangedLine,
      processDiffLine st (chars "@@ -10,0 +10,3 @@") = (9, st.2)) ∧
    parseDiffOutput
      [chars "diff --git a/f.js b/f.js", chars "index 0000000..1111111 100644",
       chars "--- a/f.js", chars "+++ b/f.js", chars "@@ -10,0 +10,3 @@",
       '+' :: c1, '+' :: c2, '+' :: c3] =
      [⟨10, c1⟩, ⟨11, c2⟩, ⟨12, c3⟩] := by
  constructor
  · intro st
    rfl
  · show (List.foldl processDiffLine (0, [])
      ([chars "diff --git a/f.js b/f.js", chars "index 0000000..1111111 100644",
        chars "--- a/f.js", chars "+++ b/f.js", chars "@@ -10,0 +10,3 @@"] ++
       ['+' :: c1, '+' :: c2, '+' :: c3])).2 = _
    rw [List.foldl_append]
    have e5 : List.foldl processDiffLine (0, [])
        [chars "diff --git a/f.js b/f.js", chars "index 0000000..1111111 100644",
         chars "--- a/f.js", chars "+++ b/f.js", chars "@@ -10,0 +10,3 @@"] =
        ((9 : Int), ([] : List ChangedLine)) := rfl
    rw [e5, List.foldl_cons, processDiffLine_plus 9 [] c1 h1, List.foldl_cons,
      processDiffLine_plus _ _ c2 h2, List.foldl_cons, processDiffLine_plus _ _ c3 h3,
      List.foldl_nil]
    norm_num

/-- Witness for C1 at concrete line contents. -/
theorem c1_diff_line_extraction_witness :
    parseDiffOutput
      [chars "diff --git a/f.js b/f.js", chars "index 0000000..1111111 100644",
       chars "--- a/f.js", chars "+++ b/f.js", chars "@@ -10,0 +10,3 @@",
       '+' :: chars "alpha();", '+' :: chars "beta();", '+' :: chars "gamma();"] =
      [⟨10, chars "alpha();"⟩, ⟨11, chars "beta();"⟩, ⟨12, chars "gamma();"⟩] :=
  (c1_diff_line_extraction (chars "alpha();") (chars "beta();") (chars "gamma();")
    (by decide) (by decide) (by decide)).2

theorem checkPatternOnLine_issues (sp : SecurityPattern) (file : Str) (cl : ChangedLine)
    (r : Report) :
    (checkPatternOnLine sp file cl r).issues =
      if reSearch sp.pattern cl.content = true ∧ ∀ e ∈ sp.exclusions, reSearch e cl.content = false
      then r.issues ++
        [{ type := chars "security", severity := sp.severity, message := sp.message,
           file := file, line := cl.lineNum }]
      else r.issues := by
  unfold checkPatternOnLine
  by_cases hp : reSearch sp.pattern cl.content = true
  · by_cases he : sp.exclusions.any (fun exc => reSearch exc cl.content) = true
    · have hnall : ¬ (∀ e ∈ sp.exclusions, reSearch e cl.content = false) := by
        rw [List.any_eq_true] at he
        obtain ⟨e, hmem, htrue⟩ := he
        intro hall
        have := hall e hmem
        simp_all
      simp [hp, he, hnall]
    · have hall : ∀ e ∈ sp.exclusions, reSearch e cl.content = false := by
        intro e hm
        by_contra hne
        exact he (List.any_eq_true.mpr ⟨e, hm, by simpa using hne⟩)
      simp only [hp, he, addIssue_issues, Bool.not_true, Bool.false_eq_true, if_false,
        Bool.not_false, if_true, true_and]
      rw [if_pos hall]
  · have hp' : reSearch sp.pattern cl.content = false := by simpa using hp
    simp [hp', hp]

/-- C3: a security rule produces an issue on a line if and only if its
match pattern matches the line and none of its exclusion patterns does
(first conjunct, for every rule of the registry and beyond); concretely,
the `hardcoded_password` rule fires on `password = "supersecret1"`
(second conjunct) and stays silent on a line that its match pattern does
match but that also matches the HTML-input-type exclusion
`type\s*[:=]\s*["']password["']` (remaining conjuncts). -/
theorem c3_rule_fires_iff :
    (∀ (sp : SecurityPattern) (file : Str) (cl : ChangedLine) (r : Report),
      (checkPatternOnLine sp file cl r).issues =
        if reSearch sp.pattern cl.content = true ∧
            ∀ e ∈ sp.exclusions, reSearch e cl.content = false
        then r.issues ++ [{ type := chars "security", severity := sp.severity,
                            message := sp.message, file := file, line := cl.lineNum }]
        else r.issues) ∧
    (∀ (file : Str) (n : Int) (r : Report),
      (checkPatternOnLine pwRule file ⟨n, pwLine1⟩ r).issues = r.issues ++
        [{ type := chars "security", severity := chars "high",
           message := chars "Potential hardcoded password detected", file := file, line := n }]) ∧
    reSearch pwRule.pattern pwLine2 = true ∧
    reSearch pwTypeExclusion pwLine2 = true ∧
    (∀ (file : Str) (n : Int) (r : Report), checkPatternOnLine pwRule file ⟨n, pwLine2⟩ r = r) := by
  refine ⟨checkPatternOnLine_issues, ?_, by decide, by decide, ?_⟩
  · intro file n r
    have hm : reSearch pwRule.pattern pwLine1 = true := by decide
    have hex : (pwRule.exclusions.any fun exc => reSearch exc pwLine1) = false := by decide
    have hsev : pwRule.severity = chars "high" := by decide
    have hmsg : pwRule.message = chars "Potential hardcoded password detected" := by decide
    unfold checkPatternOnLine
    simp [hm, hex, hsev, hmsg, addIssue_issues]
  · intro file n r
    have hm : reSearch pwRule.pattern pwLine2 = true := by decide
    have hex : (pwRule.exclusions.any fun exc => reSearch exc pwLine2) = true := by decide
    unfold checkPatternOnLine
    simp [hm, hex]

/-- Witness for C3: the positive firing on a concrete file and line. -/
theorem c3_rule_fires_iff_witness :
    (checkPatternOnLine pwRule (chars "login.js") ⟨7, pwLine1⟩ newReport).issues =
      [{ type := chars "security", severity := chars "high",
         message := chars "Potential hardcoded password detected",
         file := chars "login.js", line := 7 }] := by
  have h := c3_rule_fires_iff.2.1 (chars "login.js") 7 newReport
  simpa using h

theorem takeWhile_append_all {p : Char → Bool} {l1 l2 : List Char} (h : ∀ c ∈ l1, p c = true) :
    (l1 ++ l2).takeWhile p = l1 ++ l2.takeWhile p := by
  induction l1 with
  | nil => simp
  | cons c cs ih =>
    simp only [List.cons_append, List.takeWhile_cons, h c (by simp)]
    rw [ih (fun x hx => h x (by simp [hx]))]
    simp

/-- If a path ends in a slash-free non-empty suffix, so does its
`filepath.Base`. -/
theorem goEndsWith_filepathBase {f ext : Str} (hne : ext ≠ []) (hns : '/' ∉ ext)
    (h : goEndsWith f ext = true) : goEndsWith (filepathBase f) ext = true := by
  unfold goEndsWith List.isSuffixOf at h ⊢
  rw [List.isPrefixOf_iff_prefix] at h ⊢
  obtain ⟨t, ht⟩ := h
  obtain ⟨c, re, hre⟩ : ∃ c re, ext.reverse = c :: re := by
    cases hrev : ext.reverse with
    | nil => exact absurd (by simpa using hrev) hne
    | cons c re => exact ⟨c, re, rfl⟩
  have hcmem : c ∈ ext := by
    have : c ∈ ext.reverse := by rw [hre]; simp
    simpa using this
  have hcslash : (c == '/') = false := by
    cases hc : c == '/' with
    | true =>
      have hceq : c = '/' := beq_iff_eq.mp hc
      exact absurd (hceq ▸ hcmem) hns
    | false => rfl
  have hfrev : f.reverse = c :: (re ++ t) := by
    rw [← ht, hre]
    rfl
  have hf0 : ¬ (f = []) := by
    intro h0
    rw [h0] at hfrev
    simp at hfrev
  have hdrop : f.reverse.dropWhile (fun x => x == '/') = f.reverse := by
    rw [hfrev, List.dropWhile_cons]
    simp [hcslash]
  have htw : f.reverse.takeWhile (fun x => x != '/') =
      ext.reverse ++ t.takeWhile (fun x => x != '/') := by
    rw [← ht]
    refine takeWhile_append_all ?_
    intro x hx
    have hxe : x ∈ ext := by simpa using hx
    have hxs : ¬ x = '/' := fun he => hns (he ▸ hxe)
    simp [hxs]
  unfold filepathBase
  rw [if_neg hf0]
  simp only [hdrop, List.reverse_reverse]
  rw [if_neg hf0, htw]
  simp only [List.reverse_reverse]
  exact List.prefix_append _ _

theorem foldl_issue_origin {α : Type} (step : Report → α → Report) (P : α → Issue → Prop)
    (hstep : ∀ (r : Report) (x : α) (i : Issue), i ∈ (step r x).issues → i ∈ r.issues ∨ P x i) :
    ∀ (xs : List α) (r : Report) (i : Issue),
      i ∈ (xs.foldl step r).issues → i ∈ r.issues ∨ ∃ x ∈ xs, P x i := by
  intro xs
  induction xs with
  | nil =>
    intro r i h
    exact Or.inl h
  | cons x xs ih =>
    intro r i h
    rw [List.foldl_cons] at h
    rcases ih (step r x) i h with hin | ⟨y, hy, hP⟩
    · rcases hstep r x i hin with hin2 | hP
      · exact Or.inl hin2
      · exact Or.inr ⟨x, by simp, hP⟩
    · exact Or.inr ⟨y, by simp [hy], hP⟩

theorem checkChangedLine_issue_origin (pats : List SecurityPattern) (file : Str)
    (cl : ChangedLine) (r : Report) (i : Issue) :
    i ∈ (checkChangedLine pats file cl r).issues →
    i ∈ r.issues ∨ (i.file = file ∧ i.line = cl.lineNum) := by
  unfold checkChangedLine
  intro h
  have hstep : ∀ (r' : Report) (sp : SecurityPattern) (i' : Issue),
      i' ∈ ((fun r' sp => checkPatternOnLine sp file cl r') r' sp).issues →
      i' ∈ r'.issues ∨ (i'.file = file ∧ i'.line = cl.lineNum) := by
    intro r' sp i' hmem
    simp only at hmem
    rw [checkPatternOnLine_issues] at hmem
    split at hmem
    · rcases List.mem_append.mp hmem with h1 | h2
      · exact Or.inl h1
      · simp only [List.mem_singleton] at h2
        subst h2
        exact Or.inr ⟨rfl, rfl⟩
    · exact Or.inl hmem
  rcases foldl_issue_origin _ _ hstep pats r i h with h1 | ⟨_, _, hP⟩
  · exact Or.inl h1
  · exact Or.inr hP

theorem scanFileSecurityV2_issue_origin (git : GitOracle) (f : Str) (r : Report) (i : Issue) :
    i ∈ (scanFileSecurityV2 git f r).issues →
    i ∈ r.issues ∨
      (shouldSkipFileForSecurity f = false ∧ i.file = f ∧
        ∃ cls, getChangedLines git f = some cls ∧ ∃ cl ∈ cls, i.line = cl.lineNum) := by
  unfold scanFileSecurityV2
  intro h
  split at h
  · exact Or.inl h
  · rename_i hskip
    have hskip' : shouldSkipFileForSecurity f = false := by simpa using hskip
    split at h
    · exact Or.inl h
    · rename_i cls hgcl
      have hstep : ∀ (r' : Report) (cl : ChangedLine) (i' : Issue),
          i' ∈ ((fun r' cl => checkChangedLine getSecurityPatterns f cl r') r' cl).issues →
          i' ∈ r'.issues ∨ (i'.file = f ∧ i'.line = cl.lineNum) := by
        intro r' cl i' hmem
        exact checkChangedLine_issue_origin _ _ _ _ _ hmem
      rcases foldl_issue_origin _ _ hstep cls r i h with h1 | ⟨cl, hcl, hP⟩
      · exact Or.inl h1
      · exact Or.inr ⟨hskip', hP.1, cls, hgcl, cl, hcl, hP.2⟩

theorem runSecurityChecksV2_issue_origin (git : GitOracle) (r : Report) (i : Issue) :
    i ∈ (runSecurityChecksV2 git r).issues →
    i ∈ r.issues ∨
      ∃ f ∈ r.changedFiles, shouldSkipFileForSecurity f = false ∧ i.file = f ∧
        ∃ cls, getChangedLines git f = some cls ∧ ∃ cl ∈ cls, i.line = cl.lineNum := by
  unfold runSecurityChecksV2
  intro h
  have hstep : ∀ (r' : Report) (f : Str) (i' : Issue),
      i' ∈ ((fun r' f => scanFileSecurityV2 git f r') r' f).issues →
      i' ∈ r'.issues ∨ (shouldSkipFileForSecurity f = false ∧ i'.file = f ∧
        ∃ cls, getChangedLines git f = some cls ∧ ∃ cl ∈ cls, i'.line = cl.lineNum) := by
    intro r' f i' hmem
    exact scanFileSecurityV2_issue_origin _ _ _ _ hmem
  exact foldl_issue_origin _ _ hstep r.changedFiles r i h

theorem checkFileOldSecurity_issue_origin (readFile : Str → Option Str) (f : Str)
    (r : Report) (i : Issue) :
    i ∈ (checkFileOldSecurity readFile f r).issues → i ∈ r.issues ∨ i.file = f := by
  unfold checkFileOldSecurity
  intro h
  split at h
  · exact Or.inl h
  · rename_i content hread
    have hstep : ∀ (r' : Report) (pm : Str × Str) (i' : Issue),
        i' ∈ ((fun r' pm => if goContains (goToLower content) pm.1 then
            addIssue r' ({ type := chars "security", severity := chars "high",
                           message := pm.2, file := f, line := 0 })
          else r') r' pm).issues →
        i' ∈ r'.issues ∨ i'.file = f := by
      intro r' pm i' hmem
      simp only at hmem
      split at hmem
      · rw [addIssue_issues] at hmem
        rcases List.mem_append.mp hmem with h1 | h2
        · exact Or.inl h1
        · simp only [List.mem_singleton] at h2
          subst h2
          exact Or.inr rfl
      · exact Or.inl hmem
    rcases foldl_issue_origin _ _ hstep oldSecurityPatterns r i h with h1 | ⟨_, _, hP⟩
    · exact Or.inl h1
    · exact Or.inr hP

theorem runSecurityChecksOld_issue_origin (readFile : Str → Option Str) (r : Report) (i : Issue) :
    i ∈ (runSecurityChecksOld readFile r).issues → i ∈ r.issues ∨ i.file ∈ r.changedFiles := by
  unfold runSecurityChecksOld
  intro h
  have hstep : ∀ (r' : Report) (f : Str) (i' : Issue),
      i' ∈ ((fun r' f => checkFileOldSecurity readFile f r') r' f).issues →
      i' ∈ r'.issues ∨ i'.file = f := by
    intro r' f i' hmem
    exact checkFileOldSecurity_issue_origin _ _ _ _ hmem
  rcases foldl_issue_origin _ _ hstep r.changedFiles r i h with h1 | ⟨f, hf, hP⟩
  · exact Or.inl h1
  · exact Or.inr (hP ▸ hf)

/-- C4: dependency lock files never produce a security issue, in either
mode.  (1) A file whose basename is a lock-file name is flagged by the
per-file exemption check; (2) a flagged file is dismissed without
consulting the diff or evaluating any line, for every oracle; (3) every
issue added by the changed-line security pass belongs to a file the
exemption check passes; (4) a full scan never even scopes a file whose
basename is a lock-file name (the extension allow-list excludes them);
(5) every issue added by the full-scan security pass belongs to a scoped
file; (6) the per-file quality dispatch (whose JS/TS branches can also
emit security-type issues) is a no-op on lock files, whatever their
content. -/
theorem c4_lock_files_exempt :
    (∀ file : Str,
      filepathBase file ∈ securityIgnoreFiles → shouldSkipFileForSecurity file = true) ∧
    (∀ (git : GitOracle) (file : Str) (r : Report),
      shouldSkipFileForSecurity file = true → scanFileSecurityV2 git file r = r) ∧
    (∀ (git : GitOracle) (r : Report) (i : Issue),
      i ∈ (runSecurityChecksV2 git r).issues →
      i ∈ r.issues ∨ shouldSkipFileForSecurity i.file = false) ∧
    (∀ (ign listing : List Str) (f : Str),
      f ∈ (analyzeFullCodebase ign listing newReport).changedFiles →
      filepathBase f ∉ securityIgnoreFiles) ∧
    (∀ (readFile : Str → Option Str) (r : Report) (i : Issue),
      i ∈ (runSecurityChecksOld readFile r).issues → i ∈ r.issues ∨ i.file ∈ r.changedFiles) ∧
    (∀ (readFile : Str → Option Str) (file : Str) (r : Report),
      filepathBase file ∈ securityIgnoreFiles → qualityCheckFile readFile file r = r) := by
  have hext : ∀ e ∈ codeExtensions, e ≠ [] ∧ '/' ∉ e := by decide
  have hlockext : ∀ L ∈ securityIgnoreFiles, ∀ e ∈ codeExtensions, goEndsWith L e = false := by
    decide
  have hsufFalse : ∀ (file : Str), filepathBase file ∈ securityIgnoreFiles →
      ∀ e ∈ codeExtensions, goEndsWith file e = false := by
    intro file hb e he
    cases hgoe : goEndsWith file e with
    | false => rfl
    | true =>
      have hbe := goEndsWith_filepathBase (hext e he).1 (hext e he).2 hgoe
      have hfa := hlockext _ hb e he
      rw [hfa] at hbe
      exact absurd hbe (by simp)
  refine ⟨?_, ?_, ?_, ?_, ?_, ?_⟩
  · intro file h
    unfold shouldSkipFileForSecurity
    rw [Bool.or_eq_true]
    left
    exact List.any_eq_true.mpr ⟨_, h, by simp⟩
  · intro git file r h
    unfold scanFileSecurityV2
    simp [h]
  · intro git r i h
    rcases runSecurityChecksV2_issue_origin git r i h with h1 | ⟨f, _, hskip, hfile, _⟩
    · exact Or.inl h1
    · right
      rw [hfile]
      exact hskip
  · intro ign listing f hmem hbase
    rw [analyzeFullCodebase_changedFiles] at hmem
    have hmem' : f ∈ codeExtensions.flatMap (fun ext =>
        (findByExt listing ext).filter (fun f =>
          !f.isEmpty && !(f == chars ".") && !shouldIgnoreFile ign f)) := by
      simpa [newReport] using hmem
    rw [List.mem_flatMap] at hmem'
    obtain ⟨ext, hextmem, hf⟩ := hmem'
    have hfind : f ∈ findByExt listing ext := List.mem_of_mem_filter hf
    have hends : goEndsWith f ext = true := by
      unfold findByExt at hfind
      exact (List.mem_filter.mp hfind).2
    have := hsufFalse f hbase ext hextmem
    rw [this] at hends
    exact absurd hends (by simp)
  · intro readFile r i h
    exact runSecurityChecksOld_issue_origin readFile r i h
  · intro readFile file r h
    have e1 := hsufFalse file h (chars ".py") (by decide)
    have e2 := hsufFalse file h (chars ".js") (by decide)
    have e3 := hsufFalse file h (chars ".ts") (by decide)
    have e4 := hsufFalse file h (chars ".jsx") (by decide)
    have e5 := hsufFalse file h (chars ".tsx") (by decide)
    have e6 := hsufFalse file h (chars ".dart") (by decide)
    have e7 := hsufFalse file h (chars ".rb") (by decide)
    have e8 := hsufFalse file h (chars ".php") (by decide)
    have e9 := hsufFalse file h (chars ".java") (by decide)
    have e10 := hsufFalse file h (chars ".kt") (by decide)
    unfold qualityCheckFile
    simp [e1, e2, e3, e4, e5, e6, e7, e8, e9, e10]

/-- Witness for C4: a nested lock file is skipped; the changed-line pass
leaves the report untouched for it; the quality dispatch ignores a
`go.sum` whose content contains a hardcoded password. -/
theorem c4_lock_files_exempt_witness :
    shouldSkipFileForSecurity (chars "pkg/go.sum") = true ∧
    scanFileSecurityV2 gitFailAll (chars "pkg/package-lock.json") newReport = newReport ∧
    qualityCheckFile readLockPw (chars "go.sum") newReport = newReport :=
  ⟨c4_lock_files_exempt.1 (chars "pkg/go.sum") (by decide),
   c4_lock_files_exempt.2.1 gitFailAll (chars "pkg/package-lock.json") newReport
     (c4_lock_files_exempt.1 (chars "pkg/package-lock.json") (by decide)),
   c4_lock_files_exempt.2.2.2.2.2 readLockPw (chars "go.sum") newReport (by decide)⟩

/-- Counterexample to C5: when diff retrieval fails (both the
`origin/<target>` diff and the local fallback), `GenerateReport` in
changed-file mode aborts with an error (`none`) — it does not degrade to
a full scan, although a full scan of the same inputs would have
succeeded. -/
theorem c5_counterexample :
    generateReport gitFailAll (fun _ => none) [] [] false = none ∧
    generateReport gitFailAll (fun _ => none) [] [] true = some newReport := by
  constructor
  · rfl
  · rfl

/-- C5 as amended: if the diff against `origin/<target>` fails, the
resolver retries against the local branch name; if both fail the whole
run aborts with an error (no full-scan fallback); an empty diff yields an
empty scope and the run proceeds over it — for every tree listing, so no
full scan is consulted. -/
theorem c5_amended_no_fallback (git : GitOracle) (readFile : Str → Option Str)
    (listing ign : List Str) :
    (git.nameOnlyOrigin = none → git.nameOnlyLocal = none →
      generateReport git readFile listing ign false = none) ∧
    (∀ out, git.nameOnlyOrigin = none → git.nameOnlyLocal = some out →
      analyzeGitDiff git ign newReport =
        some (addChangedFilesFromOutput ign out newReport)) ∧
    (git.nameOnlyOrigin = some (chars "") →
      generateReport git readFile listing ign false = some newReport) := by
  refine ⟨?_, ?_, ?_⟩
  · intro h1 h2
    unfold generateReport analyzeGitDiff
    rw [h1, h2]
    rfl
  · intro out h1 h2
    unfold analyzeGitDiff
    rw [h1, h2]
  · intro h1
    unfold generateReport analyzeGitDiff
    rw [h1]
    rfl

/-- Witness for C5's amended statement at a concrete oracle. -/
theorem c5_amended_no_fallback_witness :
    generateReport gitFailAll (fun _ => none) [chars "./a.py"] [] false = none :=
  (c5_amended_no_fallback gitFailAll (fun _ => none) [chars "./a.py"] []).1 rfl rfl

/-- Counterexample to C6: in changed-file mode, with `app.js` changed only
at line 3 (the extractor yields exactly changed line 3), the run still
reports a high-severity security finding at line 1 — pre-existing code —
because the quality checks scan the whole file content. -/
theorem c6_counterexample :
    (∃ r, generateReport gitC6 readC6 [] [] false = some r ∧
      mkIssue "security" "high"
        "eval() usage detected - potential code injection vulnerability" (chars "app.js") 1 ∈
        r.issues) ∧
    getChangedLines gitC6 (chars "app.js") = some [⟨3, chars "var x = 1"⟩] ∧
    (∀ cl ∈ [(⟨3, chars "var x = 1"⟩ : ChangedLine)], cl.lineNum ≠ 1) := by
  refine ⟨⟨_, rfl, ?_⟩, by decide, by decide⟩
  decide

/-- C6 as amended: the changed-line security pass (`RunSecurityChecksV2`)
does evaluate rules only against extracted changed lines — every issue it
adds is located at a changed line of a scoped file; but the quality
checks read the whole file, so the run as a whole can still report
findings on pre-existing lines (see the counterexample). -/
theorem c6_amended_v2_only_changed_lines (git : GitOracle) (r : Report) (i : Issue) :
    i ∈ (runSecurityChecksV2 git r).issues →
    i ∈ r.issues ∨
      ∃ f ∈ r.changedFiles, i.file = f ∧
        ∃ cls, getChangedLines git f = some cls ∧ ∃ cl ∈ cls, i.line = cl.lineNum := by
  intro h
  rcases runSecurityChecksV2_issue_origin git r i h with h1 | ⟨f, hf, _, hfile, hrest⟩
  · exact Or.inl h1
  · exact Or.inr ⟨f, hf, hfile, hrest⟩

/-- Witness for C6's amended statement: the password issue produced in the
`gitPwDemo` scenario indeed sits at a changed line of `cfg.js`. -/
theorem c6_amended_v2_only_changed_lines_witness :
    pwDemoIssue ∈ repPwDemo.issues ∨
      ∃ f ∈ repPwDemo.changedFiles, pwDemoIssue.file = f ∧
        ∃ cls, getChangedLines gitPwDemo f = some cls ∧
          ∃ cl ∈ cls, pwDemoIssue.line = cl.lineNum :=
  c6_amended_v2_only_changed_lines gitPwDemo repPwDemo pwDemoIssue (by decide)

theorem globMatchF_plain : ∀ (fuel : Nat) (p n : Str),
    (∀ c ∈ p, c ≠ '*' ∧ c ≠ '?' ∧ c ≠ '\\' ∧ c ≠ '[') →
    p.length + n.length < fuel →
    globMatchF fuel p n = (n == p) := by
  intro fuel
  induction fuel with
  | zero =>
    intro p n _ hf
    omega
  | succ fuel ih =>
    intro p n hp hf
    cases p with
    | nil =>
      cases n with
      | nil => simp [globMatchF]
      | cons d nr => simp [globMatchF]
    | cons c pr =>
      have hc := hp c (by simp)
      have h1 : (c == '*') = false := by simp [hc.1]
      have h2 : (c == '?') = false := by simp [hc.2.1]
      have h3 : (c == '\\') = false := by simp [hc.2.2.1]
      have h4 : (c == '[') = false := by simp [hc.2.2.2]
      cases n with
      | nil =>
        simp [globMatchF, h1, h2, h3, h4]
      | cons d nr =>
        have hrec := ih pr nr (fun x hx => hp x (by simp [hx]))
          (by simp only [List.length_cons] at hf ⊢; omega)
        simp only [globMatchF, h1, h2, h3, h4, Bool.false_eq_true, if_false, hrec]
        rfl

theorem globMatch_vendor (n : Str) : globMatch (chars "vendor/") n = (n == chars "vendor/") := by
  unfold globMatch
  exact globMatchF_plain _ _ _ (by decide) (Nat.lt_succ_self _)

/-- Counterexample to C7: for the pattern `vendor/`, the path `vendor`
(equal to the bare prefix) satisfies the spec's ignore condition but is
NOT ignored by `shouldIgnoreFile` — the claimed "if and only if" fails in
the "equals the prefix" direction. -/
theorem c7_counterexample :
    specDirPrefixIgnores (chars "vendor/") (chars "vendor") = true ∧
    shouldIgnoreFile [chars "vendor/"] (chars "vendor") = false := by
  decide

/-- C7 as amended: for the directory pattern `vendor/`, a path is ignored
if and only if it starts with `vendor/` (the prefix followed by the
separator); a path equal to the bare prefix `vendor` is not ignored.  In
particular `vendor/pkg/file.go` is excluded and `vendor2/file.go` is
not. -/
theorem c7_amended_dir_prefix (path : Str) :
    shouldIgnoreFile [chars "vendor/"] path = goStartsWith path (chars "vendor/") ∧
    shouldIgnoreFile [chars "vendor/"] (chars "vendor/pkg/file.go") = true ∧
    shouldIgnoreFile [chars "vendor/"] (chars "vendor2/file.go") = false := by
  refine ⟨?_, by decide, by decide⟩
  unfold shouldIgnoreFile matchesIgnorePattern
  simp only [List.any_cons, List.any_nil, Bool.or_false]
  rw [globMatch_vendor]
  have hEnds : goEndsWith (chars "vendor/") (chars "/") = true := by decide
  have hTrim : goTrimEnd (chars "vendor/") (chars "/") ++ chars "/" = chars "vendor/" := by
    decide
  rw [hEnds, hTrim, Bool.true_and]
  cases hpe : path == chars "vendor/" with
  | false => simp
  | true =>
    have hpeq : path = chars "vendor/" := eq_of_beq hpe
    subst hpeq
    simp only [Bool.true_or]
    decide

/-- C8: per-file failures are skipped without aborting.  If the per-file
diff retrieval fails, the changed-line scan leaves the report unchanged
for that file (no issue recorded), and scanning a file list containing
such a file gives the same outcome as scanning the list without it (the
run continues with the remaining files).  Likewise a failed read skips
the file in the full-scan security pass and in every quality checker. -/
theorem c8_per_file_failure_skipped :
    (∀ (git : GitOracle) (file : Str) (r : Report),
      getChangedLines git file = none → scanFileSecurityV2 git file r = r) ∧
    (∀ (git : GitOracle) (f : Str) (pre post : List Str) (r : Report),
      getChangedLines git f = none →
      (pre ++ f :: post).foldl (fun r' x => scanFileSecurityV2 git x r') r =
        (pre ++ post).foldl (fun r' x => scanFileSecurityV2 git x r') r) ∧
    (∀ (readFile : Str → Option Str) (file : Str) (r : Report),
      readFile file = none → checkFileOldSecurity readFile file r = r) ∧
    (∀ (readFile : Str → Option Str) (file : Str) (r : Report),
      readFile file = none → qualityCheckFile readFile file r = r) := by
  have hskip : ∀ (git : GitOracle) (file : Str) (r : Report),
      getChangedLines git file = none → scanFileSecurityV2 git file r = r := by
    intro git file r h
    unfold scanFileSecurityV2
    rw [h]
    split <;> rfl
  refine ⟨hskip, ?_, ?_, ?_⟩
  · intro git f pre post r h
    rw [List.foldl_append, List.foldl_append, List.foldl_cons, hskip git f _ h]
  · intro readFile file r h
    unfold checkFileOldSecurity
    rw [h]
  · intro readFile file r h
    unfold qualityCheckFile checkPythonQuality checkJavaScriptQuality checkTypeScriptQuality
      checkRubyQuality checkDartQuality checkPHPQuality checkJavaKotlinQuality
    rw [h]
    split_ifs <;> rfl

/-- Witness for C8: with every git command failing, the scan of a list
containing `bad.js` equals the scan without it, and no issue is recorded. -/
theorem c8_per_file_failure_skipped_witness :
    ([chars "bad.js"] ++ chars "ok.js" :: []).foldl
        (fun r' x => scanFileSecurityV2 gitFailAll x r') newReport =
      ([chars "bad.js"] ++ []).foldl (fun r' x => scanFileSecurityV2 gitFailAll x r') newReport :=
  c8_per_file_failure_skipped.2.1 gitFailAll (chars "ok.js") [chars "bad.js"] [] newReport rfl
